import Mathlib

/-!
Verification development for the Kid3DStudio scene editor.

The repository is a TypeScript/React 3D editor.  This file shallowly embeds
the parts of the source the claims are about:

* `src/types.ts`                      — the `SceneObject` data model;
* `src/utils/booleanOperations.ts`    — the `BooleanOperationSystem` class
  (`validateGeometry`, `createMeshFromObject`, `performOperation`,
  `createResultObject`, `executeBooleanOperation`);
* `src/unnamed/part_000` (`App.tsx`)  — history management (`saveToHistory`,
  `undo`, `redo`) and the scene-graph commands (`handleAddShape`,
  `handleDuplicateObject`, `handleGroup`, `handleUngroup`,
  `performBooleanOperation`);
* `src/unnamed/part_002` (`EditorScene.tsx`) — the renderer's world placement
  of a node's geometry (a wrapper group carrying position/rotation/scale with
  the mesh nested inside at offset `pivot`).

Numbers are modelled by `ℚ` (exact arithmetic standing for the JavaScript
doubles that appear in the claims; none of the claims depends on rounding).
Geometry buffers, where finiteness checks matter, carry `FVal` values which
may be non-finite.  Rotation by Euler angles involves transcendental
functions; wherever a rotation acts on a vertex the corresponding rotation
matrix is passed explicitly as a `Mat3` argument (for the Euler angles
`(0,0,0)` used in every concrete evaluation that matrix is exactly the
identity).  The CSG mesh combinator (`three-csg-ts`) and the THREE.js
primitive tessellators are external libraries, not part of this repository:
the combinator's outcome is an explicit `CSGOutcome` argument, and the
primitive meshes are concrete valid placeholder buffers (only their validity
and, for the unit box, their identity matter to the claims).
-/

/-- A triple of rational coordinates, modelling a THREE.Vector3 / a
`[number, number, number]` tuple from `src/types.ts`. -/
structure Vec3 where
  x : ℚ
  y : ℚ
  z : ℚ
deriving DecidableEq, Repr

namespace Vec3

def add (a b : Vec3) : Vec3 := ⟨a.x + b.x, a.y + b.y, a.z + b.z⟩

def sub (a b : Vec3) : Vec3 := ⟨a.x - b.x, a.y - b.y, a.z - b.z⟩

def neg (a : Vec3) : Vec3 := ⟨-a.x, -a.y, -a.z⟩

/-- Componentwise product, modelling the action of a THREE scale vector. -/
def hmul (a b : Vec3) : Vec3 := ⟨a.x * b.x, a.y * b.y, a.z * b.z⟩

def zero : Vec3 := ⟨0, 0, 0⟩

end Vec3

/-- A 3×3 matrix given by rows; used for the linear (rotation) part of a
THREE transform. -/
structure Mat3 where
  r1 : Vec3
  r2 : Vec3
  r3 : Vec3
deriving DecidableEq, Repr

namespace Mat3

def mulVec (m : Mat3) (v : Vec3) : Vec3 :=
  ⟨m.r1.x * v.x + m.r1.y * v.y + m.r1.z * v.z,
   m.r2.x * v.x + m.r2.y * v.y + m.r2.z * v.z,
   m.r3.x * v.x + m.r3.y * v.y + m.r3.z * v.z⟩

/-- The identity matrix: the rotation matrix of the Euler angles (0,0,0). -/
def id3 : Mat3 := ⟨⟨1, 0, 0⟩, ⟨0, 1, 0⟩, ⟨0, 0, 1⟩⟩

end Mat3

/-- A floating-point value as stored in a geometry buffer: finite, NaN or
infinite.  `Number.isFinite` from the validation loop becomes `isFin`. -/
inductive FVal where
  | fin (q : ℚ)
  | nan
  | inf
deriving DecidableEq, Repr

namespace FVal

def isFin : FVal → Bool
  | .fin _ => true
  | _ => false

/-- Adding a finite rational to a buffer value (`BufferGeometry.translate`
acting on one stored coordinate). -/
def addQ : FVal → ℚ → FVal
  | .fin a, q => .fin (a + q)
  | .nan, _ => .nan
  | .inf, _ => .inf

/-- The rational value of a finite entry (junk 0 on non-finite entries,
which every use site guards against via validation). -/
def toQ : FVal → ℚ
  | .fin a => a
  | _ => 0

end FVal

/-- A THREE.BufferGeometry as far as the claims inspect it: an optional flat
position attribute (x,y,z,x,y,z,…).  `position = none` models a geometry
without a position attribute (e.g. `new THREE.BufferGeometry()`). -/
structure BufferGeometry where
  position : Option (List FVal)
deriving DecidableEq, Repr

/-- The serialized `geometryData` payload of a `custom` node, as consumed by
`THREE.BufferGeometryLoader.parse`: either data on which `parse` throws, or
data that parses to a concrete buffer geometry. -/
inductive GeomData where
  | malformed
  | parsed (g : BufferGeometry)
deriving DecidableEq, Repr

/-- The `ShapeType` union from `src/types.ts`. -/
inductive ShapeType where
  | box
  | sphere
  | cylinder
  | cone
  | torus
  | group
  | custom
deriving DecidableEq, Repr

/-- The non-recursive fields of a `SceneObject` (`src/types.ts`).  Node
identifiers are modelled as naturals (see `generateId`). -/
structure ObjData where
  id : Nat
  type : ShapeType
  position : Vec3
  rotation : Vec3
  scale : Vec3
  pivot : Option Vec3
  color : String
  name : String
  geometryData : Option GeomData
  baseDimensions : Option Vec3
deriving DecidableEq, Repr

/-- A `SceneObject` from `src/types.ts`: its scalar fields together with the
optional `children` forest (present only for groups in practice). -/
inductive SceneObject where
  | mk (data : ObjData) (children : Option (List SceneObject))

namespace SceneObject

def data : SceneObject → ObjData
  | .mk d _ => d

def children : SceneObject → Option (List SceneObject)
  | .mk _ c => c

def id (o : SceneObject) : Nat := o.data.id

def name (o : SceneObject) : String := o.data.name

def type (o : SceneObject) : ShapeType := o.data.type

end SceneObject

mutual

/-- All identifiers of one node and of everything below it (node first, then
its children depth-first); the list form of the id multiset of a subtree. -/
def idsOfObj : SceneObject → List Nat
  | .mk d ch =>
    d.id :: (match ch with
      | none => []
      | some l => idsOfList l)

/-- All identifiers occurring anywhere in a forest, at every nesting depth. -/
def idsOfList : List SceneObject → List Nat
  | [] => []
  | o :: rest => idsOfObj o ++ idsOfList rest

end

mutual

/-- Number of nodes in a subtree. -/
def sizeObj : SceneObject → Nat
  | .mk _ none => 1
  | .mk _ (some l) => 1 + sizeList l

/-- Number of nodes in a forest, at every nesting depth. -/
def sizeList : List SceneObject → Nat
  | [] => 0
  | o :: rest => sizeObj o + sizeList rest

end

/-- `findObjectRecursive` from `App.tsx`: depth-first lookup by identifier —
the node itself, then its children, then its right siblings. -/
def findObjectRecursive : List SceneObject → Nat → Option SceneObject
  | [], _ => none
  | .mk d ch :: rest, target =>
    if d.id = target then some (.mk d ch)
    else
      match ch with
      | some l =>
        match findObjectRecursive l target with
        | some found => some found
        | none => findObjectRecursive rest target
      | none => findObjectRecursive rest target

/-- `deleteObjectRecursive` from `App.tsx`: drop every node whose id is in
`ids` and recurse into the children of the survivors (the source filters the
level first and then maps the recursion over the kept nodes, which this
fused recursion reproduces). -/
def deleteObjectRecursive : List SceneObject → List Nat → List SceneObject
  | [], _ => []
  | .mk d ch :: rest, ids =>
    if d.id ∈ ids then deleteObjectRecursive rest ids
    else
      (SceneObject.mk d (match ch with
        | some l => some (deleteObjectRecursive l ids)
        | none => none)) :: deleteObjectRecursive rest ids

/-- `getAllNames` (inside `handleDuplicateObject` in `App.tsx`): every name
in the forest, at every nesting depth; the source collects them into a set,
here membership in the list plays that role. -/
def getAllNames : List SceneObject → List String
  | [] => []
  | .mk d ch :: rest =>
    d.name :: ((match ch with
      | none => []
      | some l => getAllNames l) ++ getAllNames rest)

/-! ### Decimal rendering of counters

JavaScript template interpolation `${count}` renders a natural number in
decimal.  `natChars` implements that rendering with a fuel argument so that
it reduces definitionally on concrete inputs. -/

/-- Decimal digits of `n` (most significant first) as characters, with fuel.
Fuel `n + 1` always suffices. -/
def natCharsAux : Nat → Nat → List Char
  | 0, _ => []
  | fuel + 1, n =>
    if n < 10 then [Nat.digitChar n]
    else natCharsAux fuel (n / 10) ++ [Nat.digitChar (n % 10)]

/-- The decimal rendering of a natural number, as JavaScript's number →
string conversion produces for the integer counters of the app. -/
def natChars (n : Nat) : List Char := natCharsAux (n + 1) n

/-- `natChars` packaged as a `String`. -/
def natStr (n : Nat) : String := ⟨natChars n⟩

/-! ### The duplicate-renaming scheme (`handleDuplicateObject` in `App.tsx`)

The source strips an existing copy suffix from the duplicated node's name
with the regular expression `^(.*?)\s\(Copy(?:\s(\d+))?\)$` and then searches
`"<root> (Copy)"`, `"<root> (Copy 2)"`, `"<root> (Copy 3)"`, … for the first
name not yet present in the scene.  Because the pattern is anchored at both
ends and the suffix contains exactly one parenthesis pair, a name admits at
most one decomposition `root ++ suffix`, so the lazy `(.*?)` is equivalent
to the deterministic suffix test implemented here.  `\s` is modelled as the
space character (all names the app generates use spaces) and `\d` is a
decimal digit, as in JavaScript. -/

/-- Strip one trailing `" (Copy)"` or `" (Copy <digits>)"` suffix from a
name, as the source regex match does; names of any other shape are kept. -/
def stripCopyChars (name : List Char) : List Char :=
  match name.reverse with
  | ')' :: rest =>
    match rest.span Char.isDigit with
    | (ds, rest') =>
      if ds = [] then
        match rest with
        | 'y' :: 'p' :: 'o' :: 'C' :: '(' :: ' ' :: root => root.reverse
        | _ => name
      else
        match rest' with
        | ' ' :: 'y' :: 'p' :: 'o' :: 'C' :: '(' :: ' ' :: root => root.reverse
        | _ => name
  | _ => name

/-- The first candidate name, `root ++ " (Copy)"`. -/
def copyFirst (root : List Char) : String := ⟨root ++ " (Copy)".data⟩

/-- The `k`-th candidate name, `root ++ " (Copy k)"`. -/
def copyCand (root : List Char) (k : Nat) : String :=
  ⟨root ++ " (Copy ".data ++ natChars k ++ [')']⟩

/-- The `while (existingNames.has(newName))` search of the source, made
total with a fuel argument: starting at count `k`, return the first
candidate not in `names`.  Fuel `names.length + 1` always suffices (the
candidates are pairwise distinct, see `copySearch_finds`). -/
def copySearch (names : List String) (root : List Char) : Nat → Nat → String
  | 0, count => copyCand root count
  | fuel + 1, count =>
    if copyCand root count ∈ names then copySearch names root fuel (count + 1)
    else copyCand root count

/-- The complete renaming scheme of `handleDuplicateObject`: strip a copy
suffix from the source name, take `"<root> (Copy)"` if free, otherwise the
first free `"<root> (Copy k)"` for `k = 2, 3, …`. -/
def chooseDuplicateName (names : List String) (orig : String) : String :=
  let root := stripCopyChars orig.data
  if copyFirst root ∈ names then copySearch names root (names.length + 1) 2
  else copyFirst root

/-! ### `BooleanOperationSystem` (`src/utils/booleanOperations.ts`) -/

/-- `validateGeometry`: the geometry must carry a position attribute with at
least 9 entries (one triangle) all of which are finite. -/
def validateGeometry (g : BufferGeometry) : Bool :=
  match g.position with
  | none => false
  | some positions =>
    if positions.length < 9 then false
    else positions.all FVal.isFin

/-- The position buffer of `THREE.BoxGeometry(1, 1, 1)`: a unit cube centered
at the origin.  The tessellator is external THREE.js code; the buffer is
modelled by the cube's eight corners (every coordinate `±1/2`), which is all
the claims inspect: a valid, finite unit-box mesh. -/
def boxGeometry : BufferGeometry :=
  ⟨some ([
    -(1:ℚ)/2, -(1:ℚ)/2, -(1:ℚ)/2,   (1:ℚ)/2, -(1:ℚ)/2, -(1:ℚ)/2,
    -(1:ℚ)/2,  (1:ℚ)/2, -(1:ℚ)/2,   (1:ℚ)/2,  (1:ℚ)/2, -(1:ℚ)/2,
    -(1:ℚ)/2, -(1:ℚ)/2,  (1:ℚ)/2,   (1:ℚ)/2, -(1:ℚ)/2,  (1:ℚ)/2,
    -(1:ℚ)/2,  (1:ℚ)/2,  (1:ℚ)/2,   (1:ℚ)/2,  (1:ℚ)/2,  (1:ℚ)/2
  ].map FVal.fin)⟩

/-- Placeholder for the position buffer of `THREE.SphereGeometry(0.5,32,32)`
(external tessellator); only its validity matters to the claims. -/
def sphereGeometry : BufferGeometry :=
  ⟨some (List.replicate 9 (FVal.fin (1/2)))⟩

/-- Placeholder for `THREE.CylinderGeometry(0.5,0.5,1,32)` rotated by
`rotateX(π/2)` (external tessellator); only its validity matters. -/
def cylinderGeometry : BufferGeometry :=
  ⟨some (List.replicate 9 (FVal.fin (1/2)))⟩

/-- Placeholder for `THREE.ConeGeometry(0.5,1,32)` rotated by `rotateX(π/2)`
(external tessellator); only its validity matters. -/
def coneGeometry : BufferGeometry :=
  ⟨some (List.replicate 9 (FVal.fin (1/2)))⟩

/-- Placeholder for `THREE.TorusGeometry(0.4,0.1,16,100)` (external
tessellator); only its validity matters. -/
def torusGeometry : BufferGeometry :=
  ⟨some (List.replicate 9 (FVal.fin (2/5)))⟩

/-- The geometry chosen by the `switch (obj.type)` of `createMeshFromObject`:
primitives get their canonical buffer; `custom` parses `geometryData`,
falling back to a unit box when the data is absent or the parse throws;
everything else (the `default` branch, reached by `group`) gets a unit box. -/
def realizeGeometry (obj : SceneObject) : BufferGeometry :=
  match obj.data.type with
  | .box => boxGeometry
  | .sphere => sphereGeometry
  | .cylinder => cylinderGeometry
  | .cone => coneGeometry
  | .torus => torusGeometry
  | .custom =>
    match obj.data.geometryData with
    | some (.parsed g) => g
    | some .malformed => boxGeometry
    | none => boxGeometry
  | .group => boxGeometry

/-- The scale floor of `createMeshFromObject`: a component of magnitude below
`0.001` is replaced by `0.001` with the sign of the original value, `0`
counting as nonnegative (`obj.scale[i] >= 0 ? 0.001 : -0.001`). -/
def clampScale (s : ℚ) : ℚ :=
  if |s| < 1/1000 then (if 0 ≤ s then 1/1000 else -(1/1000)) else s

/-- `clampScale` applied to every component. -/
def clampVec (v : Vec3) : Vec3 := ⟨clampScale v.x, clampScale v.y, clampScale v.z⟩

/-- A THREE.Mesh as `createMeshFromObject` builds it: a geometry plus the
numeric transform slots `position`, `rotation` (Euler angles) and `scale`.
Its world matrix is `T(position) · R(rotation) · S(scale)`; since the Euler
rotation matrix involves transcendental functions it is passed explicitly
wherever the matrix acts on a vertex (see `meshWorldVertex`). -/
structure Mesh where
  geometry : BufferGeometry
  position : Vec3
  rotationEuler : Vec3
  scale : Vec3

/-- `createMeshFromObject`: realize the geometry, reject it if invalid
(`return null`), otherwise build the mesh with `position = obj.position
(+ obj.pivot when present)`, the object's rotation, and the clamped scale. -/
def createMeshFromObject (obj : SceneObject) : Option Mesh :=
  let geometry := realizeGeometry obj
  if validateGeometry geometry then
    some
      { geometry := geometry
        position :=
          match obj.data.pivot with
          | some p => obj.data.position.add p
          | none => obj.data.position
        rotationEuler := obj.data.rotation
        scale := clampVec obj.data.scale }
  else none

/-- World position of a local vertex of a THREE.Mesh whose matrix is
`T(position) · R · S`, with `rot` the rotation matrix of the mesh's Euler
angles: `position + R·S·v`. -/
def meshWorldVertex (rot : Mat3) (m : Mesh) (v : Vec3) : Vec3 :=
  m.position.add (rot.mulVec (m.scale.hmul v))

/-- The renderer's placement of a leaf node's geometry (`SceneNode` in
`EditorScene.tsx`): a wrapper `<group>` carrying the node's
position/rotation/scale contains the `<mesh>` at offset `pivot`, so a local
vertex `v` lands at `position + R·S·(v + pivot)`. -/
def rendererWorldVertex (rot : Mat3) (o : SceneObject) (v : Vec3) : Vec3 :=
  let pivot := o.data.pivot.getD Vec3.zero
  o.data.position.add (rot.mulVec (o.data.scale.hmul (v.add pivot)))

/-- The world placement claimed for the boolean engine: the pivot acts in
the node's local frame before the node's transform, `T(node) · (v + pivot)`
with `T(node) = T(position)·R·S` and `S` the engine's (clamped) scale. -/
def pivotFirstWorldVertex (rot : Mat3) (o : SceneObject) (v : Vec3) : Vec3 :=
  o.data.position.add
    (rot.mulVec ((clampVec o.data.scale).hmul (v.add (o.data.pivot.getD Vec3.zero))))

/-- Componentwise minimum. -/
def vmin (a b : Vec3) : Vec3 := ⟨min a.x b.x, min a.y b.y, min a.z b.z⟩

/-- Componentwise maximum. -/
def vmax (a b : Vec3) : Vec3 := ⟨max a.x b.x, max a.y b.y, max a.z b.z⟩

/-- Scalar multiple of a vector. -/
def smul (q : ℚ) (v : Vec3) : Vec3 := ⟨q * v.x, q * v.y, q * v.z⟩

/-- Group a flat position buffer into rational vertex triples (entries are
finite at every use site, guarded by validation; a trailing fragment shorter
than three entries carries no vertex). -/
def flatToVecs : List FVal → List Vec3
  | x :: y :: z :: rest => ⟨x.toQ, y.toQ, z.toQ⟩ :: flatToVecs rest
  | _ => []

/-- The axis-aligned bounding box of a vertex list as
`THREE.Box3().setFromObject` computes it for the (world-space) result mesh:
the componentwise minimum and maximum over all vertices. -/
def bboxOf (vs : List Vec3) : Vec3 × Vec3 :=
  match vs with
  | [] => (Vec3.zero, Vec3.zero)
  | v :: rest => (rest.foldl vmin v, rest.foldl vmax v)

/-- The outcome of invoking the external `three-csg-ts` combinator
(`CSG.union` / `CSG.subtract` / `CSG.intersect`): it may throw, return no
mesh, or return a result mesh whose world-space geometry is `g`.  The
combinator is not part of this repository, so its outcome is passed to the
embedded pipeline explicitly. -/
inductive CSGOutcome where
  | throws (msg : String)
  | noMesh
  | mesh (g : BufferGeometry)

/-- The `BooleanOperationResult` record of `booleanOperations.ts`. -/
structure BoolOpResult where
  geometry : BufferGeometry
  position : Vec3
  size : Vec3
  isValid : Bool
  error : Option String

/-- The failure value every error branch of `performOperation` builds: an
empty geometry, zero vectors, `isValid: false` and a reason. -/
def invalidBoolResult (msg : String) : BoolOpResult :=
  ⟨⟨none⟩, Vec3.zero, Vec3.zero, false, some msg⟩

/-- `performOperation`: re-validate both operand geometries, run the
combinator (its outcome supplied as `outcome`), reject a missing result mesh
and a result geometry failing validation, and otherwise return the result
geometry with the center and extents of its world bounding box. -/
def performOperation (meshA meshB : Mesh) (outcome : CSGOutcome) : BoolOpResult :=
  if validateGeometry meshA.geometry && validateGeometry meshB.geometry then
    match outcome with
    | .throws msg => invalidBoolResult ("CSG operation failed: " ++ msg)
    | .noMesh => invalidBoolResult "CSG operation failed - no result mesh"
    | .mesh g =>
      if validateGeometry g then
        let (mn, mx) := bboxOf (flatToVecs (g.position.getD []))
        ⟨g, smul (1/2) (mn.add mx), mx.sub mn, true, none⟩
      else invalidBoolResult "Result geometry is invalid"
  else invalidBoolResult "Mesh geometry is invalid"

/-- `BufferGeometry.translate` on the flat position buffer: add the offset
to every stored vertex triple (a trailing fragment is left alone; real
buffers have length divisible by three). -/
def translateFlat (d : Vec3) : List FVal → List FVal
  | x :: y :: z :: rest => x.addQ d.x :: y.addQ d.y :: z.addQ d.z :: translateFlat d rest
  | rest => rest

/-- `geometry.translate(dx, dy, dz)` at the geometry level. -/
def translateGeometry (d : Vec3) (g : BufferGeometry) : BufferGeometry :=
  ⟨g.position.map (translateFlat d)⟩

/-- The boolean operation names of the UI. -/
inductive BoolOp where
  | union
  | subtract
  | intersect
deriving DecidableEq, Repr

/-- `operation.charAt(0).toUpperCase() + operation.slice(1)`. -/
def boolOpCapitalized : BoolOp → String
  | .union => "Union"
  | .subtract => "Subtract"
  | .intersect => "Intersect"

/-- `Math.abs(v) || 1` componentwise: the absolute value with zero replaced
by one (a falsy `0` makes `||` pick `1`). -/
def absOr1 (v : Vec3) : Vec3 :=
  ⟨if |v.x| = 0 then 1 else |v.x|,
   if |v.y| = 0 then 1 else |v.y|,
   if |v.z| = 0 then 1 else |v.z|⟩

/-- `createResultObject`: choose the stored position (operand A's position
for `subtract`, the midpoint of the operands' positions otherwise), translate
the result geometry by the negative of the offset between the world
bounding-box center and that stored position, and synthesize a `custom` node
with identity rotation, `scale = |size| (0 ↦ 1)`, zero pivot, unit
`baseDimensions`, operand A's color, a derived name and the translated
geometry as `geometryData`. -/
def createResultObject (r : BoolOpResult) (objA objB : SceneObject) (op : BoolOp)
    (newId : Nat) : SceneObject :=
  let resultPosition : Vec3 :=
    match op with
    | .subtract => objA.data.position
    | .intersect => smul (1/2) (objA.data.position.add objB.data.position)
    | .union => smul (1/2) (objA.data.position.add objB.data.position)
  let offset : Vec3 := r.position.sub resultPosition
  let adjustedGeometry := translateGeometry offset.neg r.geometry
  .mk
    { id := newId
      type := .custom
      position := resultPosition
      rotation := Vec3.zero
      scale := absOr1 r.size
      pivot := some Vec3.zero
      color := objA.data.color
      name := boolOpCapitalized op ++ " Result"
      geometryData := some (.parsed adjustedGeometry)
      baseDimensions := some ⟨1, 1, 1⟩ }
    none

/-- The `{ result, error? }` record returned by `executeBooleanOperation`. -/
structure ExecResult where
  result : Option SceneObject
  error : Option String

/-- `executeBooleanOperation`: build both meshes (failing if either is
`null`), run `performOperation`, and on a valid outcome synthesize the result
node (`generateId` is modelled by the caller-supplied fresh `newId`). -/
def executeBooleanOperation (objA objB : SceneObject) (op : BoolOp)
    (outcome : CSGOutcome) (newId : Nat) : ExecResult :=
  match createMeshFromObject objA, createMeshFromObject objB with
  | some meshA, some meshB =>
    let operationResult := performOperation meshA meshB outcome
    if operationResult.isValid then
      ⟨some (createResultObject operationResult objA objB op newId), none⟩
    else ⟨none, operationResult.error⟩
  | _, _ => ⟨none, some "Failed to create meshes from scene objects"⟩

/-! ### The application state (`App.tsx`, `src/unnamed/part_000`)

The pieces of React state the claims are about: the scene forest
(`objects`), the history stacks (`past`, `future`), the selection, the last
notification, and — modelled from the spec, since `src/utils/idGenerator.ts`
is not among the sources — the identifier supply. -/

/-- Notification severity of `showNotification`. -/
inductive NotifKind where
  | error
  | info
  | success
deriving DecidableEq, Repr

/-- A notification toast: message and severity. -/
structure Notif where
  message : String
  kind : NotifKind
deriving DecidableEq, Repr

/-- The App component's state. -/
structure AppState where
  objects : List SceneObject
  past : List (List SceneObject)
  future : List (List SceneObject)
  selectedIds : List Nat
  notif : Option Notif
  nextId : Nat

/-- Modelled from the spec: `generateId` (the Identifier Generator,
`src/utils/idGenerator.ts`, is not under `src/`) "produces globally unique,
collision-free object identifiers"; modelled as a counter threaded through
the state, so a call never returns a previously issued identifier. -/
def generateId (nextId : Nat) : Nat × Nat := (nextId, nextId + 1)

/-- `saveToHistory`: push the current graph onto `past`, clear `future`. -/
def saveToHistory (s : AppState) : AppState :=
  { s with past := s.past ++ [s.objects], future := [] }

/-- `undo`: no-op on empty `past`; otherwise pop the newest `past` snapshot,
push the current graph onto the front of `future`, make the popped snapshot
current. -/
def undo (s : AppState) : AppState :=
  match s.past.getLast? with
  | none => s
  | some previousState =>
    { s with
      future := s.objects :: s.future
      objects := previousState
      past := s.past.dropLast }

/-- `redo`: no-op on empty `future`; otherwise take the first `future`
snapshot, push the current graph onto `past`, make that snapshot current. -/
def redo (s : AppState) : AppState :=
  match s.future with
  | [] => s
  | nextState :: rest =>
    { s with
      past := s.past ++ [s.objects]
      objects := nextState
      future := rest }

/-- One mutating command, as every mutating handler of `App.tsx` performs
it: `saveToHistory()` with the pre-mutation graph, then replace the graph by
`f` of it. -/
def runMutatingCommand (f : List SceneObject → List SceneObject) (s : AppState) : AppState :=
  let s1 := saveToHistory s
  { s1 with objects := f s.objects }

/-- A sequence of mutating commands, oldest first. -/
def runMutatingCommands (fs : List (List SceneObject → List SceneObject))
    (s : AppState) : AppState :=
  fs.foldl (fun st f => runMutatingCommand f st) s

/-- `undo` iterated: `undoN (n+1) = undoN n ∘ undo`. -/
def undoN : Nat → AppState → AppState
  | 0, s => s
  | n + 1, s => undoN n (undo s)

/-- `redo` iterated: `redoN (n+1) = redo ∘ redoN n`. -/
def redoN : Nat → AppState → AppState
  | 0, s => s
  | n + 1, s => redo (redoN n s)

/-- `` `${type.charAt(0).toUpperCase() + type.slice(1)}` `` for the default
name of an added shape. -/
def shapeCapitalized : ShapeType → String
  | .box => "Box"
  | .sphere => "Sphere"
  | .cylinder => "Cylinder"
  | .cone => "Cone"
  | .torus => "Torus"
  | .group => "Group"
  | .custom => "Custom"

/-- `handleAddShape`: push history, append a fresh primitive at (0,0,10)
with scale 20 and a default numbered name, select it.  The random color is
an argument (the source draws it from `Math.random()`). -/
def handleAddShape (t : ShapeType) (color : String) (s : AppState) : AppState :=
  let s1 := saveToHistory s
  let (newId, nextId') := generateId s.nextId
  let newObject : SceneObject := .mk
    { id := newId
      type := t
      position := ⟨0, 0, 10⟩
      rotation := Vec3.zero
      scale := ⟨20, 20, 20⟩
      pivot := some Vec3.zero
      color := color
      name := shapeCapitalized t ++ " " ++ natStr (s.objects.length + 1)
      geometryData := none
      baseDimensions := none }
    none
  { s1 with
    objects := s.objects ++ [newObject]
    selectedIds := [newId]
    nextId := nextId' }

mutual

/-- The `deepClone` helper of `handleDuplicateObject`, with the identifier
supply threaded through: every copied node receives the next fresh
identifier (the object literal evaluates `id: generateId()` before cloning
`children`, so identifiers are assigned in depth-first pre-order); the root
copy is renamed to `newName` and shifted by (+5, 0, +5); `pivot` becomes an
explicit triple, defaulting to zero. -/
def deepCloneObj (newName : String) (isRoot : Bool) :
    SceneObject → Nat → SceneObject × Nat
  | .mk d ch, cnt =>
    let d' : ObjData :=
      { d with
        id := cnt
        name := if isRoot then newName else d.name
        position :=
          if isRoot then ⟨d.position.x + 5, d.position.y, d.position.z + 5⟩
          else d.position
        pivot := some (d.pivot.getD Vec3.zero) }
    match ch with
    | none => (.mk d' none, cnt + 1)
    | some l =>
      let (l', cnt') := deepCloneList newName l (cnt + 1)
      (.mk d' (some l'), cnt')

/-- `deepClone` mapped over a child list, left to right. -/
def deepCloneList (newName : String) :
    List SceneObject → Nat → List SceneObject × Nat
  | [], cnt => ([], cnt)
  | o :: rest, cnt =>
    let (o', cnt1) := deepCloneObj newName false o cnt
    let (rest', cnt2) := deepCloneList newName rest cnt1
    (o' :: rest', cnt2)

end

/-- `handleDuplicateObject`: push history first; if the identifier is not
found anywhere in the forest, stop (the history push remains); otherwise
pick a fresh collision-free name, deep-clone the node with fresh
identifiers, append the clone at the root and select it. -/
def handleDuplicateObject (targetId : Nat) (s : AppState) : AppState :=
  let s1 := saveToHistory s
  match findObjectRecursive s.objects targetId with
  | none => s1
  | some original =>
    let existingNames := getAllNames s.objects
    let newName := chooseDuplicateName existingNames original.name
    let (newObject, nextId') := deepCloneObj newName true original s.nextId
    { s1 with
      objects := s.objects ++ [newObject]
      selectedIds := [newObject.id]
      nextId := nextId' }

/-- `{...o, position: p}`: replace a node's position, keeping everything
else including its children. -/
def setPosition (o : SceneObject) (p : Vec3) : SceneObject :=
  .mk { o.data with position := p } o.children

/-- Sum of the root positions of a list of nodes. -/
def sumPositions (l : List SceneObject) : Vec3 :=
  l.foldl (fun acc o => acc.add o.data.position) Vec3.zero

/-- The centroid of the root positions of the selected nodes, as
`handleGroup` computes it (sum, then `divideScalar` by the count). -/
def groupCenter (l : List SceneObject) : Vec3 :=
  ⟨(sumPositions l).x / (l.length : ℚ),
   (sumPositions l).y / (l.length : ℚ),
   (sumPositions l).z / (l.length : ℚ)⟩

/-- `handleGroup`: needs at least two selected identifiers; splits the root
list into selected and other nodes, recenters the selected ones about the
centroid of their positions, and wraps them in a fresh group node placed at
the centroid with identity rotation and unit scale. -/
def handleGroup (s : AppState) : AppState :=
  if s.selectedIds.length < 2 then s
  else
    let s1 := saveToHistory s
    let selectedObjects := s.objects.filter (fun o => o.id ∈ s.selectedIds)
    let otherObjects := s.objects.filter (fun o => o.id ∉ s.selectedIds)
    if selectedObjects.isEmpty then s1
    else
      let center : Vec3 := groupCenter selectedObjects
      let children := selectedObjects.map (fun o => setPosition o (o.data.position.sub center))
      let (gid, nextId') := generateId s.nextId
      let newGroup : SceneObject := .mk
        { id := gid
          type := .group
          position := center
          rotation := Vec3.zero
          scale := ⟨1, 1, 1⟩
          pivot := some Vec3.zero
          color := "#ffffff"
          name := "Group " ++ natStr (s.objects.length + 1)
          geometryData := none
          baseDimensions := none }
        (some children)
      { s1 with
        objects := otherObjects ++ [newGroup]
        selectedIds := [gid]
        nextId := nextId'
        notif := some ⟨"Objects grouped successfully.", .success⟩ }

/-- A position/rotation/scale triple, the data THREE.Matrix4 `decompose`
returns. -/
structure Transform where
  position : Vec3
  rotation : Vec3
  scale : Vec3

/-- The transform triple stored on a node. -/
def transformOf (o : SceneObject) : Transform :=
  ⟨o.data.position, o.data.rotation, o.data.scale⟩

/-- `handleUngroup`: with exactly one selected identifier naming a root
group that has a `children` array, push history, recompute each child's
stored transform from the composed parent·child matrix (`compose`,
`premultiply`, `decompose` are THREE floating-point matrix routines outside
this repository, modelled by the `retrans` argument, which can only yield a
transform triple — identifiers, names and grandchildren are kept by the
`{...child}` spread), remove the group from the root list and promote the
reworked children. -/
def handleUngroup (retrans : Transform → Transform → Transform) (s : AppState) : AppState :=
  match s.selectedIds with
  | [gid] =>
    match s.objects.find? (fun o => o.id = gid) with
    | none => s
    | some g =>
      if g.data.type = .group then
        match g.children with
        | none => s
        | some ch =>
          let s1 := saveToHistory s
          let newChildren := ch.map (fun child =>
            let t := retrans (transformOf g) (transformOf child)
            SceneObject.mk
              { child.data with
                position := t.position
                rotation := t.rotation
                scale := t.scale
                pivot := some (child.data.pivot.getD Vec3.zero) }
              child.children)
          let otherObjects := s.objects.filter (fun o => o.id ≠ g.id)
          { s1 with
            objects := otherObjects ++ newChildren
            selectedIds := newChildren.map (·.id)
            notif := some ⟨"Group ungrouped.", .success⟩ }
      else s
  | _ => s

/-- `performBooleanOperation` from `App.tsx`: exactly two selected
identifiers are required; both operands must be found and must not be
groups; then the engine runs (`outcome` stands for the external combinator's
behavior on this invocation); only when a result node exists does the
command push history, remove both operands wherever they are nested, append
the result node and select it — every failure path leaves the state
untouched except for an error notification. -/
def performBooleanOperation (op : BoolOp) (outcome : CSGOutcome) (s : AppState) : AppState :=
  match s.selectedIds with
  | [idA, idB] =>
    match findObjectRecursive s.objects idA, findObjectRecursive s.objects idB with
    | some objA, some objB =>
      if objA.data.type = .group ∨ objB.data.type = .group then
        { s with notif := some ⟨"Boolean operations are not supported on Groups yet. Please ungroup them first.", .error⟩ }
      else
        let (newId, nextId') := generateId s.nextId
        let result := executeBooleanOperation objA objB op outcome newId
        match result.result with
        | none =>
          { s with notif := some ⟨"Boolean operation failed: " ++ result.error.getD "Unknown error", .error⟩ }
        | some resultObj =>
          let s1 := saveToHistory s
          let objectsWithoutOriginals := deleteObjectRecursive s.objects [idA, idB]
          { s1 with
            objects := objectsWithoutOriginals ++ [resultObj]
            selectedIds := [resultObj.id]
            nextId := nextId'
            notif := some ⟨"Boolean operation successful!", .success⟩ }
    | _, _ => { s with notif := some ⟨"Selected objects could not be found.", .error⟩ }
  | _ => { s with notif := some ⟨"Please select exactly two objects for this operation.", .error⟩ }

/-- `handleBooleanOperation`, the UI entry point: silently does nothing
unless exactly two identifiers are selected, then runs
`performBooleanOperation`. -/
def handleBooleanOperation (op : BoolOp) (outcome : CSGOutcome) (s : AppState) : AppState :=
  match s.selectedIds with
  | [_, _] => performBooleanOperation op outcome s
  | _ => s

/-- The scene-editing commands the identifier-uniqueness claim ranges over,
together with a selection command (`handleSelect` / clicking), which the
other commands' guards read.  Per-invocation external data (the random
color, the CSG outcome, the matrix re-decomposition) rides on the command. -/
inductive Cmd where
  | add (t : ShapeType) (color : String)
  | duplicate (targetId : Nat)
  | group
  | ungroup (retrans : Transform → Transform → Transform)
  | boolOp (op : BoolOp) (outcome : CSGOutcome)
  | select (ids : List Nat)

/-- Run one command against the App state. -/
def applyCmd : Cmd → AppState → AppState
  | .add t color, s => handleAddShape t color s
  | .duplicate targetId, s => handleDuplicateObject targetId s
  | .group, s => handleGroup s
  | .ungroup retrans, s => handleUngroup retrans s
  | .boolOp op outcome, s => handleBooleanOperation op outcome s
  | .select ids, s => { s with selectedIds := ids }

/-- Run a command sequence, oldest first. -/
def applyCmds (cs : List Cmd) (s : AppState) : AppState :=
  cs.foldl (fun st c => applyCmd c st) s

/-- The freshly loaded application: empty scene, empty history, nothing
selected, no identifier issued yet. -/
def initialState : AppState :=
  { objects := []
    past := []
    future := []
    selectedIds := []
    notif := none
    nextId := 0 }

/-- The vertex triples stored in a node's `geometryData` (empty when the
node carries none or it failed to parse). -/
def storedVerts (o : SceneObject) : List Vec3 :=
  match o.data.geometryData with
  | some (.parsed g) => flatToVecs (g.position.getD [])
  | _ => []

/-- The stored-position policy of `createResultObject`: operand A's position
for `subtract`, the midpoint of the operands' positions for `union` and
`intersect`. -/
def resultStoredPosition (op : BoolOp) (objA objB : SceneObject) : Vec3 :=
  match op with
  | .subtract => objA.data.position
  | .intersect => smul (1/2) (objA.data.position.add objB.data.position)
  | .union => smul (1/2) (objA.data.position.add objB.data.position)

/-- The identifier invariant of the application state: all identifiers in
the forest are pairwise distinct, and all of them were issued by the
identifier supply (are below the next fresh identifier). -/
def ForestInv (s : AppState) : Prop :=
  (idsOfList s.objects).Nodup ∧ ∀ i ∈ idsOfList s.objects, i < s.nextId

/-- A box whose scale has a zero component, a regular component and a tiny
negative component, exercising all clamp branches. -/
def scaleFloorObj : SceneObject := .mk
  { id := 0
    type := .box
    position := ⟨0, 0, 10⟩
    rotation := Vec3.zero
    scale := ⟨0, 5, -(1/10000)⟩
    pivot := none
    color := "#336699"
    name := "Box 1"
    geometryData := none
    baseDimensions := none }
  none

/-- The mesh the engine builds for `scaleFloorObj`. -/
def scaleFloorMesh : Mesh :=
  { geometry := boxGeometry
    position := ⟨0, 0, 10⟩
    rotationEuler := Vec3.zero
    scale := ⟨1/1000, 5, -(1/1000)⟩ }

/-- A box node with zero rotation, uniform scale 2 and pivot (1,0,0): the
input on which the engine's pivot handling diverges from the
pivot-before-transform formula (and from the renderer). -/
def pivotBugObj : SceneObject := .mk
  { id := 0
    type := .box
    position := Vec3.zero
    rotation := Vec3.zero
    scale := ⟨2, 2, 2⟩
    pivot := some ⟨1, 0, 0⟩
    color := "#ff0000"
    name := "Box 1"
    geometryData := none
    baseDimensions := none }
  none

/-- The mesh the engine builds for `pivotBugObj`: the pivot has been added
directly to the mesh position. -/
def pivotBugMesh : Mesh :=
  { geometry := boxGeometry
    position := ⟨1, 0, 0⟩
    rotationEuler := Vec3.zero
    scale := ⟨2, 2, 2⟩ }

/-- A custom node whose `geometryData` parses successfully but to a
geometry with a single stored coordinate — structurally invalid (far fewer
than 3 vertices). -/
def objInvalidCustom : SceneObject := .mk
  { id := 4
    type := .custom
    position := Vec3.zero
    rotation := Vec3.zero
    scale := ⟨1, 1, 1⟩
    pivot := some Vec3.zero
    color := "#00ff00"
    name := "Imported"
    geometryData := some (.parsed ⟨some [FVal.fin 0]⟩)
    baseDimensions := some ⟨1, 1, 1⟩ }
  none

/-- A custom node whose `geometryData` makes the loader throw. -/
def objMalformedCustom : SceneObject := .mk
  { id := 5
    type := .custom
    position := Vec3.zero
    rotation := Vec3.zero
    scale := ⟨1, 1, 1⟩
    pivot := some Vec3.zero
    color := "#0000ff"
    name := "Imported 2"
    geometryData := some .malformed
    baseDimensions := some ⟨1, 1, 1⟩ }
  none

/-- The two coincident identical box operands of `subtract(A, A)`. -/
def coincidentBox : SceneObject := .mk
  { id := 6
    type := .box
    position := ⟨0, 0, 10⟩
    rotation := Vec3.zero
    scale := ⟨20, 20, 20⟩
    pivot := some Vec3.zero
    color := "#123456"
    name := "Box A"
    geometryData := none
    baseDimensions := none }
  none

/-- Operand A for a concrete subtract: a box at the origin. -/
def subOpA : SceneObject := .mk
  { id := 1
    type := .box
    position := Vec3.zero
    rotation := Vec3.zero
    scale := ⟨1, 1, 1⟩
    pivot := some Vec3.zero
    color := "#111111"
    name := "Box 1"
    geometryData := none
    baseDimensions := none }
  none

/-- Operand B for the concrete subtract: another box at the origin. -/
def subOpB : SceneObject := .mk
  { id := 2
    type := .box
    position := Vec3.zero
    rotation := Vec3.zero
    scale := ⟨1, 1, 1⟩
    pivot := some Vec3.zero
    color := "#222222"
    name := "Box 2"
    geometryData := none
    baseDimensions := none }
  none

/-- A concrete world-space combinator output: one triangle with vertices
(-1,-1,-1), (1,1,1), (1,-1,1); bounding box center (0,0,0), extents
(2,2,2). -/
def csgTriangle : BufferGeometry :=
  ⟨some [FVal.fin (-1), FVal.fin (-1), FVal.fin (-1),
         FVal.fin 1, FVal.fin 1, FVal.fin 1,
         FVal.fin 1, FVal.fin (-1), FVal.fin 1]⟩

/-- The single node of the concrete duplicate scenario. -/
def box1Obj : SceneObject := .mk
  { id := 0
    type := .box
    position := ⟨0, 0, 10⟩
    rotation := Vec3.zero
    scale := ⟨20, 20, 20⟩
    pivot := some Vec3.zero
    color := "#abcdef"
    name := "Box 1"
    geometryData := none
    baseDimensions := none }
  none

/-- A scene holding exactly the node named "Box 1". -/
def dupScene : AppState :=
  { objects := [box1Obj]
    past := []
    future := []
    selectedIds := [0]
    notif := none
    nextId := 1 }

/-- The first copy the duplicate command synthesizes (placed at
(5, 0, 15)). -/
def box1Copy : SceneObject := .mk
  { id := 1
    type := .box
    position := ⟨0 + 5, 0, 10 + 5⟩
    rotation := Vec3.zero
    scale := ⟨20, 20, 20⟩
    pivot := some Vec3.zero
    color := "#abcdef"
    name := "Box 1 (Copy)"
    geometryData := none
    baseDimensions := none }
  none

/-- The second copy the duplicate command synthesizes (also placed at
(5, 0, 15)). -/
def box1Copy2 : SceneObject := .mk
  { id := 2
    type := .box
    position := ⟨0 + 5, 0, 10 + 5⟩
    rotation := Vec3.zero
    scale := ⟨20, 20, 20⟩
    pivot := some Vec3.zero
    color := "#abcdef"
    name := "Box 1 (Copy 2)"
    geometryData := none
    baseDimensions := none }
  none

/-- The scene after duplicating "Box 1" once. -/
def dupSceneStep1 : AppState :=
  { objects := [box1Obj, box1Copy]
    past := [[box1Obj]]
    future := []
    selectedIds := [1]
    notif := none
    nextId := 2 }

/-- The scene after duplicating "Box 1" a second time. -/
def dupSceneStep2 : AppState :=
  { objects := [box1Obj, box1Copy, box1Copy2]
    past := [[box1Obj], [box1Obj, box1Copy]]
    future := []
    selectedIds := [2]
    notif := none
    nextId := 3 }

/-! ## Theorems

First a stock of helper lemmas about the embedded definitions, then one
theorem per claim (with witnesses and counterexamples where required). -/

@[simp] theorem SceneObject.data_mk (d : ObjData) (c : Option (List SceneObject)) :
    (SceneObject.mk d c).data = d := rfl

@[simp] theorem SceneObject.children_mk (d : ObjData) (c : Option (List SceneObject)) :
    (SceneObject.mk d c).children = c := rfl

@[simp] theorem SceneObject.id_mk (d : ObjData) (c : Option (List SceneObject)) :
    (SceneObject.mk d c).id = d.id := rfl

@[simp] theorem SceneObject.name_mk (d : ObjData) (c : Option (List SceneObject)) :
    (SceneObject.mk d c).name = d.name := rfl

mutual

/-- Mutual structural induction over a scene node. -/
theorem sceneObjectInd {P : SceneObject → Prop} {Q : List SceneObject → Prop}
    (hnil : Q []) (hcons : ∀ o l, P o → Q l → Q (o :: l))
    (hnone : ∀ d, P (.mk d none)) (hsome : ∀ d l, Q l → P (.mk d (some l))) :
    ∀ o : SceneObject, P o
  | .mk d none => hnone d
  | .mk d (some l) => hsome d l (sceneForestInd hnil hcons hnone hsome l)

/-- Mutual structural induction over a scene forest. -/
theorem sceneForestInd {P : SceneObject → Prop} {Q : List SceneObject → Prop}
    (hnil : Q []) (hcons : ∀ o l, P o → Q l → Q (o :: l))
    (hnone : ∀ d, P (.mk d none)) (hsome : ∀ d l, Q l → P (.mk d (some l))) :
    ∀ l : List SceneObject, Q l
  | [] => hnil
  | o :: rest =>
    hcons o rest (sceneObjectInd hnil hcons hnone hsome o)
      (sceneForestInd hnil hcons hnone hsome rest)

end

@[simp] theorem idsOfList_nil : idsOfList [] = [] := rfl

@[simp] theorem idsOfList_cons (o : SceneObject) (rest : List SceneObject) :
    idsOfList (o :: rest) = idsOfObj o ++ idsOfList rest := rfl

@[simp] theorem idsOfObj_mk_none (d : ObjData) :
    idsOfObj (.mk d none) = [d.id] := rfl

@[simp] theorem idsOfObj_mk_some (d : ObjData) (l : List SceneObject) :
    idsOfObj (.mk d (some l)) = d.id :: idsOfList l := rfl

@[simp] theorem idsOfList_append (l₁ l₂ : List SceneObject) :
    idsOfList (l₁ ++ l₂) = idsOfList l₁ ++ idsOfList l₂ := by
  induction l₁ with
  | nil => simp
  | cons o rest ih => simp [ih]

theorem idsOfList_eq_flatMap (l : List SceneObject) :
    idsOfList l = l.flatMap idsOfObj := by
  induction l with
  | nil => rfl
  | cons o rest ih => simp [ih]

/-- A permutation of a forest's roots permutes its identifier list. -/
theorem idsOfList_perm {l₁ l₂ : List SceneObject} (h : l₁.Perm l₂) :
    (idsOfList l₁).Perm (idsOfList l₂) := by
  rw [idsOfList_eq_flatMap, idsOfList_eq_flatMap]
  exact h.flatMap_right idsOfObj

/-- A root-level sublist of a forest has a sublist of its identifiers. -/
theorem idsOfList_sublist {l₁ l₂ : List SceneObject} (h : l₁.Sublist l₂) :
    (idsOfList l₁).Sublist (idsOfList l₂) := by
  induction h with
  | slnil => simp
  | cons o _ ih => exact ih.trans (List.sublist_append_right _ _)
  | cons₂ o _ ih => exact ih.append_left _

/-! ### History: undo/redo round trip -/

@[simp] theorem runMutatingCommands_nil (s : AppState) :
    runMutatingCommands [] s = s := rfl

@[simp] theorem runMutatingCommands_cons (f : List SceneObject → List SceneObject)
    (fs : List (List SceneObject → List SceneObject)) (s : AppState) :
    runMutatingCommands (f :: fs) s = runMutatingCommands fs (runMutatingCommand f s) := rfl

theorem length_past_runMutatingCommands
    (fs : List (List SceneObject → List SceneObject)) (s : AppState) :
    (runMutatingCommands fs s).past.length = s.past.length + fs.length := by
  induction fs generalizing s with
  | nil => simp
  | cons f rest ih =>
    rw [runMutatingCommands_cons, ih]
    simp [runMutatingCommand, saveToHistory]
    omega

theorem redo_undo (s : AppState) (h : s.past ≠ []) : redo (undo s) = s := by
  have hg : s.past.getLast? = some (s.past.getLast h) := List.getLast?_eq_getLast _ h
  cases s with
  | mk objects past future selectedIds notif nextId =>
    simp only [undo, hg, redo]
    simp [List.dropLast_append_getLast h]

theorem undo_past (s : AppState) (h : s.past ≠ []) :
    (undo s).past = s.past.dropLast := by
  have hg : s.past.getLast? = some (s.past.getLast h) := List.getLast?_eq_getLast _ h
  simp only [undo, hg]

theorem redoN_undoN (n : Nat) (s : AppState) (h : n ≤ s.past.length) :
    redoN n (undoN n s) = s := by
  induction n generalizing s with
  | zero => rfl
  | succ n ih =>
    have hne : s.past ≠ [] := by
      intro he
      rw [he] at h
      simp at h
    have hlen : n ≤ (undo s).past.length := by
      rw [undo_past s hne, List.length_dropLast]
      omega
    have : redoN (n + 1) (undoN (n + 1) s) = redo (redoN n (undoN n (undo s))) := rfl
    rw [this, ih _ hlen, redo_undo s hne]

/-- C6: for every initial application state and every sequence of `N`
mutating commands (each a `saveToHistory` of the pre-mutation graph followed
by a graph replacement, exactly as all mutating handlers of `App.tsx` are
built), undoing `N` times and then redoing `N` times restores the exact
state reached after the original commands — in particular the exact graph,
node identifiers included, since snapshots are stored and replayed as
values. -/
theorem undo_redo_round_trip (fs : List (List SceneObject → List SceneObject))
    (s : AppState) :
    redoN fs.length (undoN fs.length (runMutatingCommands fs s)) =
      runMutatingCommands fs s := by
  apply redoN_undoN
  rw [length_past_runMutatingCommands]
  omega

/-! ### Duplicate with an unknown identifier (frame effect) -/

/-- C10: invoking `handleDuplicateObject` with an identifier that occurs
nowhere in the forest leaves the forest, selection, notification and
identifier supply unchanged and produces no failure, but it has already
pushed the current graph onto `past` and cleared `future` (the source calls
`saveToHistory()` before looking the identifier up), so the no-op becomes an
undoable history entry and all pending redos are discarded. -/
theorem duplicate_unknown_id_only_pushes_history (targetId : Nat) (s : AppState)
    (h : findObjectRecursive s.objects targetId = none) :
    (handleDuplicateObject targetId s).objects = s.objects ∧
    (handleDuplicateObject targetId s).past = s.past ++ [s.objects] ∧
    (handleDuplicateObject targetId s).future = [] ∧
    (handleDuplicateObject targetId s).selectedIds = s.selectedIds ∧
    (handleDuplicateObject targetId s).notif = s.notif ∧
    (handleDuplicateObject targetId s).nextId = s.nextId := by
  simp [handleDuplicateObject, h, saveToHistory]

/-- Witness for C10: duplicating identifier 5 in the empty initial scene. -/
theorem duplicate_unknown_id_only_pushes_history_witness :
    findObjectRecursive initialState.objects 5 = none ∧
    ((handleDuplicateObject 5 initialState).objects = initialState.objects ∧
     (handleDuplicateObject 5 initialState).past = initialState.past ++ [initialState.objects] ∧
     (handleDuplicateObject 5 initialState).future = [] ∧
     (handleDuplicateObject 5 initialState).selectedIds = initialState.selectedIds ∧
     (handleDuplicateObject 5 initialState).notif = initialState.notif ∧
     (handleDuplicateObject 5 initialState).nextId = initialState.nextId) :=
  ⟨by simp [findObjectRecursive, initialState],
   duplicate_unknown_id_only_pushes_history 5 initialState
     (by simp [findObjectRecursive, initialState])⟩

/-! ### The scale floor -/

theorem clampScale_ne_zero (s : ℚ) : clampScale s ≠ 0 := by
  unfold clampScale
  split
  · split <;> norm_num
  · rename_i hout
    intro h0
    rw [h0] at hout
    norm_num at hout

theorem le_abs_clampScale (s : ℚ) : 1/1000 ≤ |clampScale s| := by
  unfold clampScale
  split
  · split
    · rw [abs_of_nonneg (by norm_num : (0:ℚ) ≤ 1/1000)]
    · rw [abs_neg, abs_of_nonneg (by norm_num : (0:ℚ) ≤ 1/1000)]
  · rename_i hout
    exact not_lt.mp hout

theorem clampScale_of_small {s : ℚ} (h : |s| < 1/1000) :
    clampScale s = if 0 ≤ s then 1/1000 else -(1/1000) := by
  unfold clampScale
  rw [if_pos h]

theorem clampScale_of_large {s : ℚ} (h : 1/1000 ≤ |s|) : clampScale s = s := by
  unfold clampScale
  rw [if_neg (not_lt.mpr h)]

/-- C9: whenever the boolean engine builds a mesh from a scene object, the
mesh's scale is the componentwise clamped scale: every component whose
magnitude is below `0.001` is replaced by `0.001` with the component's
original sign (`0` counting as nonnegative), all other components are kept.
Consequently every effective scale component is nonzero with magnitude at
least `0.001`, so the diagonal scale factor — and with it the world matrix
`T·R·S` for any rotation — is invertible even when a stored scale component
is `0`. -/
theorem scale_floor_keeps_transform_invertible (obj : SceneObject) (m : Mesh)
    (h : createMeshFromObject obj = some m) :
    m.scale = clampVec obj.data.scale ∧
    (m.scale.x ≠ 0 ∧ m.scale.y ≠ 0 ∧ m.scale.z ≠ 0) ∧
    (1/1000 ≤ |m.scale.x| ∧ 1/1000 ≤ |m.scale.y| ∧ 1/1000 ≤ |m.scale.z|) ∧
    (|obj.data.scale.x| < 1/1000 →
      m.scale.x = if 0 ≤ obj.data.scale.x then 1/1000 else -(1/1000)) ∧
    (|obj.data.scale.y| < 1/1000 →
      m.scale.y = if 0 ≤ obj.data.scale.y then 1/1000 else -(1/1000)) ∧
    (|obj.data.scale.z| < 1/1000 →
      m.scale.z = if 0 ≤ obj.data.scale.z then 1/1000 else -(1/1000)) ∧
    (1/1000 ≤ |obj.data.scale.x| → m.scale.x = obj.data.scale.x) ∧
    (1/1000 ≤ |obj.data.scale.y| → m.scale.y = obj.data.scale.y) ∧
    (1/1000 ≤ |obj.data.scale.z| → m.scale.z = obj.data.scale.z) := by
  have hscale : m.scale = clampVec obj.data.scale := by
    simp only [createMeshFromObject] at h
    split at h
    · rw [Option.some.injEq] at h
      rw [← h]
    · exact absurd h (by simp)
  refine ⟨hscale, ?_, ?_, ?_, ?_, ?_, ?_, ?_, ?_⟩ <;> rw [hscale]
  · exact ⟨clampScale_ne_zero _, clampScale_ne_zero _, clampScale_ne_zero _⟩
  · exact ⟨le_abs_clampScale _, le_abs_clampScale _, le_abs_clampScale _⟩
  · exact fun hs => clampScale_of_small hs
  · exact fun hs => clampScale_of_small hs
  · exact fun hs => clampScale_of_small hs
  · exact fun hs => clampScale_of_large hs
  · exact fun hs => clampScale_of_large hs
  · exact fun hs => clampScale_of_large hs

/-- Witness for C9: the engine builds a mesh for `scaleFloorObj` and its
scale is clamped componentwise: `0 ↦ 0.001`, `5 ↦ 5`, `-0.0001 ↦ -0.001`. -/
theorem scale_floor_keeps_transform_invertible_witness :
    createMeshFromObject scaleFloorObj = some scaleFloorMesh ∧
    (scaleFloorMesh.scale = clampVec scaleFloorObj.data.scale ∧
     (scaleFloorMesh.scale.x ≠ 0 ∧ scaleFloorMesh.scale.y ≠ 0 ∧ scaleFloorMesh.scale.z ≠ 0) ∧
     (1/1000 ≤ |scaleFloorMesh.scale.x| ∧ 1/1000 ≤ |scaleFloorMesh.scale.y| ∧
      1/1000 ≤ |scaleFloorMesh.scale.z|) ∧
     (|scaleFloorObj.data.scale.x| < 1/1000 →
       scaleFloorMesh.scale.x = if 0 ≤ scaleFloorObj.data.scale.x then 1/1000 else -(1/1000)) ∧
     (|scaleFloorObj.data.scale.y| < 1/1000 →
       scaleFloorMesh.scale.y = if 0 ≤ scaleFloorObj.data.scale.y then 1/1000 else -(1/1000)) ∧
     (|scaleFloorObj.data.scale.z| < 1/1000 →
       scaleFloorMesh.scale.z = if 0 ≤ scaleFloorObj.data.scale.z then 1/1000 else -(1/1000)) ∧
     (1/1000 ≤ |scaleFloorObj.data.scale.x| → scaleFloorMesh.scale.x = scaleFloorObj.data.scale.x) ∧
     (1/1000 ≤ |scaleFloorObj.data.scale.y| → scaleFloorMesh.scale.y = scaleFloorObj.data.scale.y) ∧
     (1/1000 ≤ |scaleFloorObj.data.scale.z| → scaleFloorMesh.scale.z = scaleFloorObj.data.scale.z)) := by
  have habs0 : |(0:ℚ)| = 0 := abs_zero
  have habs5 : |(5:ℚ)| = 5 := abs_of_nonneg (by norm_num)
  have habsS : |(-(1/10000):ℚ)| = 1/10000 := by
    rw [abs_neg, abs_of_nonneg (by norm_num : (0:ℚ) ≤ 1/10000)]
  have habsP : |(1/10000:ℚ)| = 1/10000 := abs_of_nonneg (by norm_num)
  have h : createMeshFromObject scaleFloorObj = some scaleFloorMesh := by
    simp [createMeshFromObject, realizeGeometry, validateGeometry, boxGeometry,
      scaleFloorObj, scaleFloorMesh, clampVec, clampScale, FVal.isFin,
      habs0, habs5, habsS, habsP]
    norm_num [abs_of_nonneg]
  exact ⟨h, scale_floor_keeps_transform_invertible scaleFloorObj scaleFloorMesh h⟩

/-! ### Pivot placement in the boolean engine -/

/-- C1 (against the claim; the claim matches the renderer and the stated
pivot semantics, the engine does not): for the node `pivotBugObj` — rotation
(0,0,0), whose Euler rotation matrix is exactly the identity — the boolean
engine places the local vertex `(0,0,0)` at `position + pivot + R·S·v =
(1,0,0)`, because `createMeshFromObject` adds the pivot to the mesh position
after the rotation/scale act only on `v`; the claimed world placement
`T(node)·(v + pivot) = position + R·S·(v + pivot)` — which is also what the
renderer's nested group/mesh structure computes — gives `(2,0,0)` instead. -/
theorem engine_pivot_added_after_transform :
    createMeshFromObject pivotBugObj = some pivotBugMesh ∧
    meshWorldVertex Mat3.id3 pivotBugMesh Vec3.zero = ⟨1, 0, 0⟩ ∧
    pivotFirstWorldVertex Mat3.id3 pivotBugObj Vec3.zero = ⟨2, 0, 0⟩ ∧
    rendererWorldVertex Mat3.id3 pivotBugObj Vec3.zero = ⟨2, 0, 0⟩ ∧
    meshWorldVertex Mat3.id3 pivotBugMesh Vec3.zero ≠
      pivotFirstWorldVertex Mat3.id3 pivotBugObj Vec3.zero := by
  have habs2 : |(2:ℚ)| = 2 := abs_of_nonneg (by norm_num)
  refine ⟨?_, ?_, ?_, ?_, ?_⟩
  · simp [createMeshFromObject, realizeGeometry, validateGeometry, boxGeometry,
      pivotBugObj, pivotBugMesh, clampVec, clampScale, FVal.isFin, habs2, Vec3.add, Vec3.zero]
    norm_num
  · simp [meshWorldVertex, pivotBugMesh, Mat3.id3, Mat3.mulVec, Vec3.add,
      Vec3.hmul, Vec3.zero]
  · simp [pivotFirstWorldVertex, pivotBugObj, Mat3.id3, Mat3.mulVec, Vec3.add,
      Vec3.hmul, Vec3.zero, clampVec, clampScale, habs2]
    norm_num
  · simp [rendererWorldVertex, pivotBugObj, Mat3.id3, Mat3.mulVec, Vec3.add,
      Vec3.hmul, Vec3.zero]
  · have h1 : meshWorldVertex Mat3.id3 pivotBugMesh Vec3.zero = ⟨1, 0, 0⟩ := by
      simp [meshWorldVertex, pivotBugMesh, Mat3.id3, Mat3.mulVec, Vec3.add,
        Vec3.hmul, Vec3.zero]
    have h2 : pivotFirstWorldVertex Mat3.id3 pivotBugObj Vec3.zero = ⟨2, 0, 0⟩ := by
      simp [pivotFirstWorldVertex, pivotBugObj, Mat3.id3, Mat3.mulVec, Vec3.add,
        Vec3.hmul, Vec3.zero, clampVec, clampScale, habs2]
      norm_num
    rw [h1, h2]
    intro hcontra
    have := congrArg Vec3.x hcontra
    norm_num at this

/-! ### Custom-mesh realization and its box fallback -/

theorem validateGeometry_boxGeometry : validateGeometry boxGeometry = true := by
  simp [validateGeometry, boxGeometry, FVal.isFin]

/-- Counterexample to C3 as stated: a custom node whose `geometryData`
parses but fails validation (fewer than 3 vertices) makes
`createMeshFromObject` return `null` — a propagated mesh-creation failure —
instead of the claimed unit-box fallback. -/
theorem custom_mesh_invalid_data_is_not_boxed :
    createMeshFromObject objInvalidCustom = none := by
  simp [createMeshFromObject, realizeGeometry, objInvalidCustom, validateGeometry]

/-- C3 (amended): for a custom node, the unit-box fallback fires exactly for
absent `geometryData` and for data the loader throws on; `geometryData` that
parses to a geometry failing validation (missing position buffer, fewer
than 3 vertices, or a non-finite coordinate) makes the realizer return
`null`, a failure the callers observe — not a unit box. -/
theorem custom_mesh_fallback_policy (obj : SceneObject) (h : obj.data.type = .custom) :
    ((obj.data.geometryData = none ∨ obj.data.geometryData = some .malformed) →
      ∃ m, createMeshFromObject obj = some m ∧ m.geometry = boxGeometry) ∧
    (∀ g, obj.data.geometryData = some (.parsed g) → validateGeometry g = false →
      createMeshFromObject obj = none) := by
  constructor
  · intro hgd
    have hreal : realizeGeometry obj = boxGeometry := by
      rcases hgd with hgd | hgd <;> simp [realizeGeometry, h, hgd]
    have hbuild : createMeshFromObject obj = some
        { geometry := boxGeometry
          position :=
            match obj.data.pivot with
            | some p => obj.data.position.add p
            | none => obj.data.position
          rotationEuler := obj.data.rotation
          scale := clampVec obj.data.scale } := by
      simp [createMeshFromObject, hreal, validateGeometry_boxGeometry]
    exact ⟨_, hbuild, rfl⟩
  · intro g hgd hval
    have hreal : realizeGeometry obj = g := by
      simp [realizeGeometry, h, hgd]
    simp [createMeshFromObject, hreal, hval]

/-- Witness for C3 (amended): the loader-throwing node falls back to the
unit box; the parsed-but-invalid node yields `null`. -/
theorem custom_mesh_fallback_policy_witness :
    objMalformedCustom.data.type = .custom ∧
    (∃ m, createMeshFromObject objMalformedCustom = some m ∧ m.geometry = boxGeometry) ∧
    objInvalidCustom.data.type = .custom ∧
    createMeshFromObject objInvalidCustom = none :=
  ⟨rfl,
   (custom_mesh_fallback_policy objMalformedCustom rfl).1 (Or.inr rfl),
   rfl,
   (custom_mesh_fallback_policy objInvalidCustom rfl).2 _ rfl
     (by simp [validateGeometry])⟩

/-! ### Invalid combinator output is a failure, never a node -/

/-- C4: whenever the external combinator's output mesh fails validation —
no position buffer, fewer than 3 vertices, or a non-finite coordinate, and
in particular the empty mesh a correct CSG subtract produces for
`subtract(A, A)` on two coincident identical operands — `performOperation`
reports `isValid: false` and `executeBooleanOperation` returns no scene
node: an empty result is an operation failure, never a silently successful
empty node. -/
theorem invalid_combinator_output_is_failure (meshA meshB : Mesh)
    (objA objB : SceneObject) (op : BoolOp) (newId : Nat) (g : BufferGeometry)
    (h : validateGeometry g = false) :
    (performOperation meshA meshB (.mesh g)).isValid = false ∧
    (executeBooleanOperation objA objB op (.mesh g) newId).result = none := by
  have hperf : ∀ mA mB : Mesh, (performOperation mA mB (.mesh g)).isValid = false := by
    intro mA mB
    unfold performOperation
    split
    · simp [h, invalidBoolResult]
    · simp [invalidBoolResult]
  refine ⟨hperf meshA meshB, ?_⟩
  unfold executeBooleanOperation
  cases hA : createMeshFromObject objA with
  | none => simp
  | some mA =>
    cases hB : createMeshFromObject objB with
    | none => simp
    | some mB => simp [hperf mA mB]

/-- Witness for C4: `subtract(A, A)` with the empty mesh the combinator
produces for two coincident identical boxes (a geometry with an empty
position buffer fails validation), using the engine's own meshes for the
two operands. -/
theorem invalid_combinator_output_is_failure_witness :
    validateGeometry ⟨some []⟩ = false ∧
    ((performOperation
        { geometry := boxGeometry, position := ⟨0, 0, 10⟩,
          rotationEuler := Vec3.zero, scale := ⟨20, 20, 20⟩ }
        { geometry := boxGeometry, position := ⟨0, 0, 10⟩,
          rotationEuler := Vec3.zero, scale := ⟨20, 20, 20⟩ }
        (.mesh ⟨some []⟩)).isValid = false ∧
     (executeBooleanOperation coincidentBox coincidentBox .subtract
        (.mesh ⟨some []⟩) 9).result = none) :=
  ⟨by simp [validateGeometry],
   invalid_combinator_output_is_failure _ _ coincidentBox coincidentBox .subtract 9
     ⟨some []⟩ (by simp [validateGeometry])⟩

/-! ### No scene-graph or history mutation on a failing boolean command -/

/-- C5: every run of the boolean-combine command either fails — too few or
unfound operands, a group operand, a mesh that cannot be created, a
combinator failure, or an invalid/empty result — in which case the object
forest, the past stack, the future stack and the identifier supply are all
exactly as before and only an error notification is produced; or it fully
succeeds, and only then does the graph edit happen: one history push of the
pre-mutation graph, removal of both operands wherever nested, and insertion
of the synthesized result node. -/
theorem boolean_failure_no_mutation (op : BoolOp) (outcome : CSGOutcome) (s : AppState) :
    ((performBooleanOperation op outcome s).objects = s.objects ∧
     (performBooleanOperation op outcome s).past = s.past ∧
     (performBooleanOperation op outcome s).future = s.future ∧
     (performBooleanOperation op outcome s).nextId = s.nextId ∧
     ∃ msg, (performBooleanOperation op outcome s).notif = some ⟨msg, NotifKind.error⟩) ∨
    (∃ idA idB objA objB resultObj,
      s.selectedIds = [idA, idB] ∧
      findObjectRecursive s.objects idA = some objA ∧
      findObjectRecursive s.objects idB = some objB ∧
      objA.data.type ≠ .group ∧ objB.data.type ≠ .group ∧
      (executeBooleanOperation objA objB op outcome s.nextId).result = some resultObj ∧
      (performBooleanOperation op outcome s).past = s.past ++ [s.objects] ∧
      (performBooleanOperation op outcome s).future = [] ∧
      (performBooleanOperation op outcome s).objects =
        deleteObjectRecursive s.objects [idA, idB] ++ [resultObj]) := by
  rcases hsel : s.selectedIds with _ | ⟨idA, _ | ⟨idB, _ | ⟨c, rest⟩⟩⟩
  · left
    simp only [performBooleanOperation, hsel]
    exact ⟨trivial, trivial, trivial, trivial, _, rfl⟩
  · left
    simp only [performBooleanOperation, hsel]
    exact ⟨trivial, trivial, trivial, trivial, _, rfl⟩
  · cases hA : findObjectRecursive s.objects idA with
    | none =>
      left
      simp only [performBooleanOperation, hsel, hA]
      exact ⟨trivial, trivial, trivial, trivial, _, rfl⟩
    | some objA =>
      cases hB : findObjectRecursive s.objects idB with
      | none =>
        left
        simp only [performBooleanOperation, hsel, hA, hB]
        exact ⟨trivial, trivial, trivial, trivial, _, rfl⟩
      | some objB =>
        by_cases hg : objA.data.type = .group ∨ objB.data.type = .group
        · left
          simp only [performBooleanOperation, hsel, hA, hB, if_pos hg]
          exact ⟨trivial, trivial, trivial, trivial, _, rfl⟩
        · cases hr : (executeBooleanOperation objA objB op outcome s.nextId).result with
          | none =>
            left
            simp only [performBooleanOperation, hsel, hA, hB, if_neg hg, generateId, hr]
            exact ⟨trivial, trivial, trivial, trivial, _, rfl⟩
          | some resultObj =>
            right
            push_neg at hg
            refine ⟨idA, idB, objA, objB, resultObj, rfl, hA, hB, hg.1, hg.2, hr, ?_, ?_, ?_⟩ <;>
              simp [performBooleanOperation, hsel, hA, hB, if_neg (not_or.mpr hg),
                generateId, hr, saveToHistory]
  · left
    simp only [performBooleanOperation, hsel]
    exact ⟨trivial, trivial, trivial, trivial, _, rfl⟩

/-! ### Re-expression of a boolean result in the new node's frame -/

theorem FVal.toQ_addQ (v : FVal) (q : ℚ) (h : v.isFin = true) :
    (v.addQ q).toQ = v.toQ + q := by
  cases v with
  | fin a => rfl
  | nan => simp [FVal.isFin] at h
  | inf => simp [FVal.isFin] at h

theorem Vec3.add_neg_eq_sub (w v : Vec3) : w.add v.neg = w.sub v := by
  simp [Vec3.add, Vec3.neg, Vec3.sub, sub_eq_add_neg]

theorem flatToVecs_translateFlat (d : Vec3) :
    ∀ l : List FVal, l.all FVal.isFin = true →
      flatToVecs (translateFlat d l) = (flatToVecs l).map (fun w => w.add d)
  | [], _ => rfl
  | [x], _ => rfl
  | [x, y], _ => rfl
  | x :: y :: z :: rest, h => by
    simp only [List.all_cons, Bool.and_eq_true] at h
    obtain ⟨hx, hy, hz, hrest⟩ := h
    simp only [translateFlat, flatToVecs, List.map_cons,
      flatToVecs_translateFlat d rest hrest, FVal.toQ_addQ _ _ hx,
      FVal.toQ_addQ _ _ hy, FVal.toQ_addQ _ _ hz, Vec3.add]

/-- C2 (amended): `createResultObject` stores the result geometry translated
by the negative of the offset between the world bounding-box center
(`r.position`, computed by `performOperation` as the center of the output's
axis-aligned bounding box, whose extents become `r.size`) and the chosen
stored position, on a node carrying that position, identity rotation, scale
`= |size| (0 ↦ 1)`, zero pivot and unit `baseDimensions`.  (Rendering the
node with this stored transform does not reproduce the world-space mesh in
general — see the counterexample theorem.) -/
theorem boolean_result_geometry_reexpression :
    (∀ (r : BoolOpResult) (objA objB : SceneObject) (op : BoolOp) (newId : Nat),
      (r.geometry.position.getD []).all FVal.isFin = true →
      storedVerts (createResultObject r objA objB op newId) =
        (flatToVecs (r.geometry.position.getD [])).map
          (fun w => w.sub (r.position.sub (resultStoredPosition op objA objB))) ∧
      (createResultObject r objA objB op newId).data.position =
        resultStoredPosition op objA objB ∧
      (createResultObject r objA objB op newId).data.rotation = Vec3.zero ∧
      (createResultObject r objA objB op newId).data.scale = absOr1 r.size ∧
      (createResultObject r objA objB op newId).data.pivot = some Vec3.zero ∧
      (createResultObject r objA objB op newId).data.baseDimensions = some ⟨1, 1, 1⟩) ∧
    (∀ (meshA meshB : Mesh) (g : BufferGeometry),
      validateGeometry meshA.geometry = true →
      validateGeometry meshB.geometry = true →
      validateGeometry g = true →
      (performOperation meshA meshB (.mesh g)).geometry = g ∧
      (performOperation meshA meshB (.mesh g)).position =
        smul (1/2) ((bboxOf (flatToVecs (g.position.getD []))).1.add
          (bboxOf (flatToVecs (g.position.getD []))).2) ∧
      (performOperation meshA meshB (.mesh g)).size =
        (bboxOf (flatToVecs (g.position.getD []))).2.sub
          (bboxOf (flatToVecs (g.position.getD []))).1) := by
  constructor
  · intro r objA objB op newId h
    have hpos : (match op with
        | BoolOp.subtract => objA.data.position
        | BoolOp.intersect => smul (1/2) (objA.data.position.add objB.data.position)
        | BoolOp.union => smul (1/2) (objA.data.position.add objB.data.position)) =
        resultStoredPosition op objA objB := by
      cases op <;> rfl
    refine ⟨?_, ?_, ?_, ?_, ?_, ?_⟩ <;>
      simp only [createResultObject, storedVerts, hpos, SceneObject.data_mk]
    · cases hp : r.geometry.position with
      | none => simp [translateGeometry, hp, flatToVecs]
      | some l =>
        rw [hp] at h
        simp only [Option.getD_some] at h
        simp only [translateGeometry, hp, Option.map_some', Option.getD_some]
        rw [flatToVecs_translateFlat _ _ h]
        simp [Vec3.add_neg_eq_sub]
  · intro meshA meshB g hA hB hg
    rcases hbb : bboxOf (flatToVecs (g.position.getD [])) with ⟨mn, mx⟩
    refine ⟨?_, ?_, ?_⟩ <;>
      simp [performOperation, hA, hB, hg, hbb]

theorem validateGeometry_csgTriangle : validateGeometry csgTriangle = true := by
  simp [validateGeometry, csgTriangle, FVal.isFin]

/-- Counterexample to C2 as stated: for the subtract of the two origin
boxes with the triangle output, the synthesized node stores position
(0,0,0) (operand A's), identity rotation and scale (2,2,2) (the bbox
extents), and — the offset being zero — stores the world vertices
unchanged; but rendering the node with that stored transform maps its copy
of the world vertex (-1,-1,-1) to (-2,-2,-2) ≠ (-1,-1,-1): the stored scale
re-scales the already world-sized geometry, so the claimed exact
reproduction of the world-space result mesh fails. -/
theorem boolean_result_render_does_not_reproduce :
    ((executeBooleanOperation subOpA subOpB .subtract (.mesh csgTriangle) 7).result.map
      storedVerts) = some [⟨-1, -1, -1⟩, ⟨1, 1, 1⟩, ⟨1, -1, 1⟩] ∧
    flatToVecs (csgTriangle.position.getD []) = [⟨-1, -1, -1⟩, ⟨1, 1, 1⟩, ⟨1, -1, 1⟩] ∧
    ((executeBooleanOperation subOpA subOpB .subtract (.mesh csgTriangle) 7).result.map
      (fun node => node.data.position)) = some ⟨0, 0, 0⟩ ∧
    ((executeBooleanOperation subOpA subOpB .subtract (.mesh csgTriangle) 7).result.map
      (fun node => node.data.rotation)) = some ⟨0, 0, 0⟩ ∧
    ((executeBooleanOperation subOpA subOpB .subtract (.mesh csgTriangle) 7).result.map
      (fun node => node.data.scale)) = some ⟨2, 2, 2⟩ ∧
    ((executeBooleanOperation subOpA subOpB .subtract (.mesh csgTriangle) 7).result.map
      (fun node => rendererWorldVertex Mat3.id3 node ⟨-1, -1, -1⟩)) = some ⟨-2, -2, -2⟩ ∧
    (⟨-2, -2, -2⟩ : Vec3) ≠ ⟨-1, -1, -1⟩ := by
  have habs2 : |(2:ℚ)| = 2 := abs_of_nonneg (by norm_num)
  have hexec : executeBooleanOperation subOpA subOpB .subtract (.mesh csgTriangle) 7 =
      ⟨some (createResultObject
        (performOperation
          { geometry := boxGeometry, position := Vec3.zero,
            rotationEuler := Vec3.zero, scale := ⟨1, 1, 1⟩ }
          { geometry := boxGeometry, position := Vec3.zero,
            rotationEuler := Vec3.zero, scale := ⟨1, 1, 1⟩ }
          (.mesh csgTriangle))
        subOpA subOpB .subtract 7), none⟩ := by
    have hbox : createMeshFromObject subOpA = some
        { geometry := boxGeometry, position := Vec3.zero,
          rotationEuler := Vec3.zero, scale := ⟨1, 1, 1⟩ } := by
      simp [createMeshFromObject, realizeGeometry, subOpA,
        validateGeometry_boxGeometry, clampVec, clampScale, Vec3.add, Vec3.zero]
      norm_num [abs_of_nonneg]
    have hboxB : createMeshFromObject subOpB = some
        { geometry := boxGeometry, position := Vec3.zero,
          rotationEuler := Vec3.zero, scale := ⟨1, 1, 1⟩ } := by
      simp [createMeshFromObject, realizeGeometry, subOpB,
        validateGeometry_boxGeometry, clampVec, clampScale, Vec3.add, Vec3.zero]
      norm_num [abs_of_nonneg]
    have hvalid : (performOperation
        { geometry := boxGeometry, position := Vec3.zero,
          rotationEuler := Vec3.zero, scale := ⟨1, 1, 1⟩ }
        { geometry := boxGeometry, position := Vec3.zero,
          rotationEuler := Vec3.zero, scale := ⟨1, 1, 1⟩ }
        (.mesh csgTriangle)).isValid = true := by
      simp [performOperation, validateGeometry_boxGeometry, validateGeometry_csgTriangle]
    simp [executeBooleanOperation, hbox, hboxB, hvalid]
  rw [hexec]
  have hperf : performOperation
      { geometry := boxGeometry, position := Vec3.zero,
        rotationEuler := Vec3.zero, scale := ⟨1, 1, 1⟩ }
      { geometry := boxGeometry, position := Vec3.zero,
        rotationEuler := Vec3.zero, scale := ⟨1, 1, 1⟩ }
      (.mesh csgTriangle) =
      ⟨csgTriangle, ⟨0, 0, 0⟩, ⟨2, 2, 2⟩, true, none⟩ := by
    simp [performOperation, validateGeometry, boxGeometry, FVal.isFin,
      csgTriangle, bboxOf, flatToVecs, FVal.toQ, vmin, vmax,
      Vec3.add, Vec3.sub, smul]
    norm_num
  rw [hperf]
  refine ⟨?_, ?_, ?_, ?_, ?_, ?_, ?_⟩
  · simp [createResultObject, storedVerts, translateGeometry, csgTriangle,
      translateFlat, flatToVecs, FVal.addQ, FVal.toQ, Vec3.neg, Vec3.sub,
      Vec3.zero, resultStoredPosition, subOpA]
  · simp [csgTriangle, flatToVecs, FVal.toQ]
  · simp [createResultObject, subOpA, Vec3.zero]
  · simp [createResultObject, Vec3.zero]
  · simp [createResultObject, absOr1, habs2]
  · simp [createResultObject, rendererWorldVertex, Mat3.id3, Mat3.mulVec,
      Vec3.add, Vec3.hmul, Vec3.zero, absOr1, habs2, subOpA]
  · intro hcontra
    have := congrArg Vec3.x hcontra
    norm_num at this

/-- Witness for C2 (amended): both parts instantiated on the concrete
subtract scenario. -/
theorem boolean_result_geometry_reexpression_witness :
    ((⟨csgTriangle, ⟨0, 0, 0⟩, ⟨2, 2, 2⟩, true, none⟩ :
        BoolOpResult).geometry.position.getD []).all FVal.isFin = true ∧
    (storedVerts (createResultObject ⟨csgTriangle, ⟨0, 0, 0⟩, ⟨2, 2, 2⟩, true, none⟩
        subOpA subOpB .subtract 7) =
      (flatToVecs ((⟨csgTriangle, ⟨0, 0, 0⟩, ⟨2, 2, 2⟩, true, none⟩ :
          BoolOpResult).geometry.position.getD [])).map
        (fun w => w.sub ((⟨0, 0, 0⟩ : Vec3).sub
          (resultStoredPosition .subtract subOpA subOpB))) ∧
     (createResultObject ⟨csgTriangle, ⟨0, 0, 0⟩, ⟨2, 2, 2⟩, true, none⟩
        subOpA subOpB .subtract 7).data.position =
          resultStoredPosition .subtract subOpA subOpB ∧
     (createResultObject ⟨csgTriangle, ⟨0, 0, 0⟩, ⟨2, 2, 2⟩, true, none⟩
        subOpA subOpB .subtract 7).data.rotation = Vec3.zero ∧
     (createResultObject ⟨csgTriangle, ⟨0, 0, 0⟩, ⟨2, 2, 2⟩, true, none⟩
        subOpA subOpB .subtract 7).data.scale =
          absOr1 (⟨2, 2, 2⟩ : Vec3) ∧
     (createResultObject ⟨csgTriangle, ⟨0, 0, 0⟩, ⟨2, 2, 2⟩, true, none⟩
        subOpA subOpB .subtract 7).data.pivot = some Vec3.zero ∧
     (createResultObject ⟨csgTriangle, ⟨0, 0, 0⟩, ⟨2, 2, 2⟩, true, none⟩
        subOpA subOpB .subtract 7).data.baseDimensions = some ⟨1, 1, 1⟩) :=
  ⟨by simp [csgTriangle, FVal.isFin],
   boolean_result_geometry_reexpression.1
     ⟨csgTriangle, ⟨0, 0, 0⟩, ⟨2, 2, 2⟩, true, none⟩ subOpA subOpB .subtract 7
     (by simp [csgTriangle, FVal.isFin])⟩

/-! ### The duplicate-renaming scheme -/

theorem natCharsAux_fuel_irrelevant :
    ∀ n f₁ f₂, n < f₁ → n < f₂ → natCharsAux f₁ n = natCharsAux f₂ n := by
  intro n
  induction n using Nat.strong_induction_on with
  | _ n ih =>
    intro f₁ f₂ h₁ h₂
    match f₁, f₂ with
    | fa + 1, fb + 1 =>
      simp only [natCharsAux]
      by_cases h : n < 10
      · simp [h]
      · simp only [h, if_false]
        have hd : n / 10 < n := Nat.div_lt_self (by omega) (by norm_num)
        rw [ih (n / 10) hd fa fb (by omega) (by omega)]

theorem natChars_eq (n : Nat) :
    natChars n = if n < 10 then [Nat.digitChar n]
      else natChars (n / 10) ++ [Nat.digitChar (n % 10)] := by
  by_cases h : n < 10
  · simp [natChars, natCharsAux, h]
  · have hd : n / 10 < n := Nat.div_lt_self (by omega) (by norm_num)
    rw [if_neg h]
    unfold natChars
    have hstep : natCharsAux (n + 1) n =
        natCharsAux n (n / 10) ++ [Nat.digitChar (n % 10)] := by
      simp only [natCharsAux, h, if_false]
    rw [hstep]
    congr 1
    exact natCharsAux_fuel_irrelevant (n / 10) n (n / 10 + 1) (by omega) (by omega)

theorem natChars_ne_nil (n : Nat) : natChars n ≠ [] := by
  rw [natChars_eq]
  split <;> simp

theorem digitChar_inj_lt_ten :
    ∀ a < 10, ∀ b < 10, Nat.digitChar a = Nat.digitChar b → a = b := by
  decide

theorem natChars_injective : ∀ a b, natChars a = natChars b → a = b := by
  intro a
  induction a using Nat.strong_induction_on with
  | _ a ih =>
    intro b h
    rw [natChars_eq a, natChars_eq b] at h
    by_cases ha : a < 10 <;> by_cases hb : b < 10
    · simp only [ha, hb, if_true, List.cons.injEq, and_true] at h
      exact digitChar_inj_lt_ten a ha b hb h
    · simp only [ha, hb, if_true, if_false] at h
      cases hcb : natChars (b / 10) with
      | nil => exact absurd hcb (natChars_ne_nil _)
      | cons c cs =>
        rw [hcb] at h
        have hlen := congrArg List.length h
        simp at hlen
    · simp only [ha, hb, if_true, if_false] at h
      cases hca : natChars (a / 10) with
      | nil => exact absurd hca (natChars_ne_nil _)
      | cons c cs =>
        rw [hca] at h
        have hlen := congrArg List.length h
        simp at hlen
    · simp only [ha, hb, if_false] at h
      have h1 : natChars (a / 10) = natChars (b / 10) := by
        have := congrArg List.dropLast h
        simpa [List.dropLast_concat] using this
      have h2 : Nat.digitChar (a % 10) = Nat.digitChar (b % 10) := by
        have := congrArg List.getLast? h
        simp only [List.getLast?_concat, Option.some.injEq] at this
        exact this
      have hq : a / 10 = b / 10 :=
        ih (a / 10) (Nat.div_lt_self (by omega) (by norm_num)) _ h1
      have hr : a % 10 = b % 10 :=
        digitChar_inj_lt_ten _ (Nat.mod_lt _ (by norm_num)) _
          (Nat.mod_lt _ (by norm_num)) h2
      omega

theorem copyCand_injective (root : List Char) :
    Function.Injective (copyCand root) := by
  intro a b h
  unfold copyCand at h
  have h' : root ++ " (Copy ".data ++ natChars a ++ [')'] =
      root ++ " (Copy ".data ++ natChars b ++ [')'] := congrArg String.data h
  rw [List.append_assoc, List.append_assoc, List.append_assoc, List.append_assoc] at h'
  have h'' := List.append_cancel_left (List.append_cancel_left h')
  have h3 : natChars a = natChars b := by
    have := congrArg List.dropLast h''
    simpa [List.dropLast_concat] using this
  exact natChars_injective a b h3

theorem copyCand_exists_free (names : List String) (root : List Char) :
    ∃ j, 2 ≤ j ∧ j ≤ 2 + (names.length + 1) ∧ copyCand root j ∉ names := by
  by_contra hall
  push_neg at hall
  have hsub : (List.range' 2 (names.length + 2)).map (copyCand root) ⊆ names := by
    intro c hc
    simp only [List.mem_map, List.mem_range'_1] at hc
    obtain ⟨j, ⟨hj1, hj2⟩, rfl⟩ := hc
    exact hall j hj1 (by omega)
  have hnd : ((List.range' 2 (names.length + 2)).map (copyCand root)).Nodup :=
    (List.nodup_range' _ _).map (copyCand_injective root)
  have hle := (List.subperm_of_subset hnd hsub).length_le
  simp at hle

theorem copySearch_spec (names : List String) (root : List Char) :
    ∀ fuel k, (∃ j, k ≤ j ∧ j ≤ k + fuel ∧ copyCand root j ∉ names) →
      ∃ N, copySearch names root fuel k = copyCand root N ∧ k ≤ N ∧
        copyCand root N ∉ names ∧
        ∀ m, k ≤ m → m < N → copyCand root m ∈ names := by
  intro fuel
  induction fuel with
  | zero =>
    intro k hex
    obtain ⟨j, hj1, hj2, hj3⟩ := hex
    have hjk : j = k := by omega
    subst hjk
    exact ⟨j, rfl, le_refl j, hj3,
      fun m hm1 hm2 => absurd (lt_of_le_of_lt hm1 hm2) (lt_irrefl _)⟩
  | succ fuel ih =>
    intro k hex
    by_cases hc : copyCand root k ∈ names
    · have hex' : ∃ j, k + 1 ≤ j ∧ j ≤ (k + 1) + fuel ∧ copyCand root j ∉ names := by
        obtain ⟨j, hj1, hj2, hj3⟩ := hex
        refine ⟨j, ?_, by omega, hj3⟩
        rcases Nat.eq_or_lt_of_le hj1 with rfl | hlt
        · exact absurd hc hj3
        · omega
      obtain ⟨N, hN1, hN2, hN3, hN4⟩ := ih (k + 1) hex'
      refine ⟨N, ?_, by omega, hN3, ?_⟩
      · simp only [copySearch, if_pos hc]
        exact hN1
      · intro m hm1 hm2
        rcases Nat.eq_or_lt_of_le hm1 with rfl | hlt
        · exact hc
        · exact hN4 m hlt hm2
    · exact ⟨k, by simp only [copySearch, if_neg hc], le_refl k, hc,
        fun m hm1 hm2 => absurd (lt_of_le_of_lt hm1 hm2) (lt_irrefl _)⟩

theorem chooseDuplicateName_spec (names : List String) (orig : String) :
    chooseDuplicateName names orig ∉ names ∧
    ((copyFirst (stripCopyChars orig.data) ∉ names ∧
      chooseDuplicateName names orig = copyFirst (stripCopyChars orig.data)) ∨
     (copyFirst (stripCopyChars orig.data) ∈ names ∧
      ∃ N, 2 ≤ N ∧
        chooseDuplicateName names orig = copyCand (stripCopyChars orig.data) N ∧
        copyCand (stripCopyChars orig.data) N ∉ names ∧
        ∀ m, 2 ≤ m → m < N → copyCand (stripCopyChars orig.data) m ∈ names)) := by
  simp only [chooseDuplicateName]
  by_cases hf : copyFirst (stripCopyChars orig.data) ∈ names
  · rw [if_pos hf]
    obtain ⟨j, hj1, hj2, hj3⟩ := copyCand_exists_free names (stripCopyChars orig.data)
    obtain ⟨N, hN1, hN2, hN3, hN4⟩ :=
      copySearch_spec names (stripCopyChars orig.data) (names.length + 1) 2
        ⟨j, hj1, by omega, hj3⟩
    rw [hN1]
    exact ⟨hN3, Or.inr ⟨hf, N, hN2, rfl, hN3, hN4⟩⟩
  · rw [if_neg hf]
    exact ⟨hf, Or.inl ⟨hf, rfl⟩⟩

theorem deepCloneObj_fst_name (nm : String) (o : SceneObject) (c : Nat) :
    ((deepCloneObj nm true o c).1).name = nm := by
  cases o with
  | mk d ch =>
    cases ch with
    | none => simp [deepCloneObj]
    | some l =>
      rcases hp : deepCloneList nm l (c + 1) with ⟨l', c'⟩
      simp [deepCloneObj, hp]

/-- C8: duplicating the node named "Box 1" twice yields copies named
"Box 1 (Copy)" and then "Box 1 (Copy 2)"; and in general, whenever
`handleDuplicateObject` finds its target, the appended clone's name is
obtained by stripping any existing "(Copy…)" suffix from the source name and
then taking `"<root> (Copy)"` if that collides with no name anywhere in the
forest, otherwise `"<root> (Copy N)"` for the smallest `N ≥ 2` that collides
with no existing name. -/
theorem duplicate_naming :
    ((handleDuplicateObject 0 dupScene).objects.map SceneObject.name =
        ["Box 1", "Box 1 (Copy)"] ∧
     (handleDuplicateObject 0 (handleDuplicateObject 0 dupScene)).objects.map
        SceneObject.name = ["Box 1", "Box 1 (Copy)", "Box 1 (Copy 2)"]) ∧
    (∀ (s : AppState) (targetId : Nat) (original : SceneObject),
      findObjectRecursive s.objects targetId = some original →
      ∃ newObj : SceneObject,
        (handleDuplicateObject targetId s).objects = s.objects ++ [newObj] ∧
        newObj.name = chooseDuplicateName (getAllNames s.objects) original.name ∧
        newObj.name ∉ getAllNames s.objects ∧
        ((copyFirst (stripCopyChars original.name.data) ∉ getAllNames s.objects ∧
          newObj.name = copyFirst (stripCopyChars original.name.data)) ∨
         (copyFirst (stripCopyChars original.name.data) ∈ getAllNames s.objects ∧
          ∃ N, 2 ≤ N ∧
            newObj.name = copyCand (stripCopyChars original.name.data) N ∧
            copyCand (stripCopyChars original.name.data) N ∉ getAllNames s.objects ∧
            ∀ m, 2 ≤ m → m < N →
              copyCand (stripCopyChars original.name.data) m ∈ getAllNames s.objects))) := by
  have hfind1 : findObjectRecursive dupScene.objects 0 = some box1Obj := by
    simp [findObjectRecursive, dupScene, box1Obj]
  have hnames1 : getAllNames dupScene.objects = ["Box 1"] := by
    simp [getAllNames, dupScene, box1Obj]
  have hs1 : handleDuplicateObject 0 dupScene = dupSceneStep1 := by
    simp only [handleDuplicateObject, hfind1, hnames1]
    rfl
  have hfind2 : findObjectRecursive dupSceneStep1.objects 0 = some box1Obj := by
    simp [findObjectRecursive, dupSceneStep1, box1Obj, box1Copy]
  have hnames2 : getAllNames dupSceneStep1.objects = ["Box 1", "Box 1 (Copy)"] := by
    simp [getAllNames, dupSceneStep1, box1Obj, box1Copy]
  have hs2 : handleDuplicateObject 0 dupSceneStep1 = dupSceneStep2 := by
    simp only [handleDuplicateObject, hfind2, hnames2]
    rfl
  constructor
  · constructor
    · rw [hs1]
      rfl
    · rw [hs1, hs2]
      rfl
  · intro s targetId original h
    rcases hp : deepCloneObj (chooseDuplicateName (getAllNames s.objects) original.name)
        true original s.nextId with ⟨newObj, c'⟩
    have hname : newObj.name =
        chooseDuplicateName (getAllNames s.objects) original.name := by
      have hfn := deepCloneObj_fst_name
        (chooseDuplicateName (getAllNames s.objects) original.name) original s.nextId
      rw [hp] at hfn
      exact hfn
    obtain ⟨hfree, hchar⟩ := chooseDuplicateName_spec (getAllNames s.objects) original.name
    refine ⟨newObj, ?_, hname, ?_, ?_⟩
    · simp [handleDuplicateObject, h, hp]
    · rw [hname]
      exact hfree
    · rw [hname]
      exact hchar

/-- Witness for C8: the general naming rule applied to duplicating the
"Box 1" node of the concrete scene. -/
theorem duplicate_naming_witness :
    findObjectRecursive dupScene.objects 0 = some box1Obj ∧
    (∃ newObj : SceneObject,
      (handleDuplicateObject 0 dupScene).objects = dupScene.objects ++ [newObj] ∧
      newObj.name = chooseDuplicateName (getAllNames dupScene.objects) box1Obj.name ∧
      newObj.name ∉ getAllNames dupScene.objects ∧
      ((copyFirst (stripCopyChars box1Obj.name.data) ∉ getAllNames dupScene.objects ∧
        newObj.name = copyFirst (stripCopyChars box1Obj.name.data)) ∨
       (copyFirst (stripCopyChars box1Obj.name.data) ∈ getAllNames dupScene.objects ∧
        ∃ N, 2 ≤ N ∧
          newObj.name = copyCand (stripCopyChars box1Obj.name.data) N ∧
          copyCand (stripCopyChars box1Obj.name.data) N ∉ getAllNames dupScene.objects ∧
          ∀ m, 2 ≤ m → m < N →
            copyCand (stripCopyChars box1Obj.name.data) m ∈ getAllNames dupScene.objects))) :=
  ⟨by simp [findObjectRecursive, dupScene, box1Obj],
   duplicate_naming.2 dupScene 0 box1Obj
     (by simp [findObjectRecursive, dupScene, box1Obj])⟩

/-! ### Identifier uniqueness -/

theorem idsOfObj_setPosition (o : SceneObject) (p : Vec3) :
    idsOfObj (setPosition o p) = idsOfObj o := by
  cases o with
  | mk d ch => cases ch <;> rfl

theorem idsOfList_map_of_preserving (f : SceneObject → SceneObject)
    (hf : ∀ o, idsOfObj (f o) = idsOfObj o) :
    ∀ l : List SceneObject, idsOfList (l.map f) = idsOfList l := by
  intro l
  induction l with
  | nil => rfl
  | cons o rest ih => simp [hf, ih]

theorem deepClone_ids :
    (∀ o : SceneObject, ∀ nm b c, ∃ k, 0 < k ∧
      (deepCloneObj nm b o c).2 = c + k ∧
      idsOfObj (deepCloneObj nm b o c).1 = List.range' c k) ∧
    (∀ l : List SceneObject, ∀ nm c, ∃ k,
      (deepCloneList nm l c).2 = c + k ∧
      idsOfList (deepCloneList nm l c).1 = List.range' c k) := by
  have hnil : ∀ nm c, ∃ k,
      (deepCloneList nm ([] : List SceneObject) c).2 = c + k ∧
      idsOfList (deepCloneList nm [] c).1 = List.range' c k := by
    intro nm c
    exact ⟨0, rfl, rfl⟩
  have hcons : ∀ (o : SceneObject) (rest : List SceneObject),
      (∀ nm b c, ∃ k, 0 < k ∧ (deepCloneObj nm b o c).2 = c + k ∧
        idsOfObj (deepCloneObj nm b o c).1 = List.range' c k) →
      (∀ nm c, ∃ k, (deepCloneList nm rest c).2 = c + k ∧
        idsOfList (deepCloneList nm rest c).1 = List.range' c k) →
      ∀ nm c, ∃ k, (deepCloneList nm (o :: rest) c).2 = c + k ∧
        idsOfList (deepCloneList nm (o :: rest) c).1 = List.range' c k := by
    intro o rest hP hQ nm c
    rcases hpo : deepCloneObj nm false o c with ⟨o', c1⟩
    obtain ⟨k1, hk1pos, hc1, hio⟩ := hP nm false c
    rw [hpo] at hc1 hio
    dsimp only at hc1 hio
    rcases hpr : deepCloneList nm rest c1 with ⟨rest', c2⟩
    obtain ⟨k2, hc2, hir⟩ := hQ nm c1
    rw [hpr] at hc2 hir
    dsimp only at hc2 hir
    refine ⟨k2 + k1, ?_, ?_⟩
    · simp only [deepCloneList, hpo, hpr]
      omega
    · simp only [deepCloneList, hpo, hpr, idsOfList_cons]
      rw [hio, hir, hc1]
      rw [show c + k1 = c + 1 * k1 by omega]
      exact List.range'_append c k1 k2 1
  have hnone : ∀ d : ObjData, ∀ nm b c, ∃ k, 0 < k ∧
      (deepCloneObj nm b (.mk d none) c).2 = c + k ∧
      idsOfObj (deepCloneObj nm b (.mk d none) c).1 = List.range' c k := by
    intro d nm b c
    exact ⟨1, one_pos, rfl, rfl⟩
  have hsome : ∀ (d : ObjData) (l : List SceneObject),
      (∀ nm c, ∃ k, (deepCloneList nm l c).2 = c + k ∧
        idsOfList (deepCloneList nm l c).1 = List.range' c k) →
      ∀ nm b c, ∃ k, 0 < k ∧
        (deepCloneObj nm b (.mk d (some l)) c).2 = c + k ∧
        idsOfObj (deepCloneObj nm b (.mk d (some l)) c).1 = List.range' c k := by
    intro d l hQ nm b c
    rcases hp : deepCloneList nm l (c + 1) with ⟨l', c2⟩
    obtain ⟨k, hk1, hk2⟩ := hQ nm (c + 1)
    rw [hp] at hk1 hk2
    dsimp only at hk1 hk2
    refine ⟨k + 1, by omega, ?_, ?_⟩
    · simp only [deepCloneObj, hp]
      omega
    · simp only [deepCloneObj, hp, idsOfObj_mk_some]
      rw [hk2, List.range'_succ]
  exact ⟨fun o => sceneObjectInd hnil hcons hnone hsome o,
    fun l => sceneForestInd hnil hcons hnone hsome l⟩

theorem deleteObjectRecursive_cons (o : SceneObject) (rest : List SceneObject)
    (ids : List Nat) :
    deleteObjectRecursive (o :: rest) ids =
      deleteObjectRecursive [o] ids ++ deleteObjectRecursive rest ids := by
  cases o with
  | mk d ch =>
    cases ch <;> by_cases h : d.id ∈ ids <;> simp [deleteObjectRecursive, h]

theorem deleteObjectRecursive_ids_sublist :
    ∀ l : List SceneObject, ∀ ids,
      (idsOfList (deleteObjectRecursive l ids)).Sublist (idsOfList l) := by
  refine sceneForestInd
    (P := fun o => ∀ ids,
      (idsOfList (deleteObjectRecursive [o] ids)).Sublist (idsOfObj o))
    (Q := fun l => ∀ ids,
      (idsOfList (deleteObjectRecursive l ids)).Sublist (idsOfList l))
    ?_ ?_ ?_ ?_
  · intro ids
    simp [deleteObjectRecursive]
  · intro o rest hP hQ ids
    rw [deleteObjectRecursive_cons, idsOfList_append]
    exact (hP ids).append (hQ ids)
  · intro d ids
    simp only [deleteObjectRecursive]
    split <;> simp
  · intro d l hQ ids
    simp only [deleteObjectRecursive]
    split
    · simp
    · simp only [idsOfList_cons, idsOfList_nil, idsOfObj_mk_some, List.append_nil]
      exact List.Sublist.cons₂ _ (hQ ids)

@[simp] theorem idsOfList_single_mk_none (d : ObjData) :
    idsOfList [SceneObject.mk d none] = [d.id] := rfl

theorem saveToHistory_inv (s : AppState) (h : ForestInv s) :
    ForestInv (saveToHistory s) := h

theorem handleAddShape_inv (t : ShapeType) (color : String) (s : AppState)
    (h : ForestInv s) : ForestInv (handleAddShape t color s) := by
  obtain ⟨hn, hb⟩ := h
  have hobj : (handleAddShape t color s).objects =
      s.objects ++ [SceneObject.mk
        { id := s.nextId, type := t, position := ⟨0, 0, 10⟩, rotation := Vec3.zero,
          scale := ⟨20, 20, 20⟩, pivot := some Vec3.zero, color := color,
          name := shapeCapitalized t ++ " " ++ natStr (s.objects.length + 1),
          geometryData := none, baseDimensions := none } none] := rfl
  have hnext : (handleAddShape t color s).nextId = s.nextId + 1 := rfl
  constructor
  · rw [hobj, idsOfList_append, idsOfList_single_mk_none, List.nodup_append]
    refine ⟨hn, List.nodup_singleton _, ?_⟩
    intro a ha hmem
    simp at hmem
    subst hmem
    exact absurd (hb _ ha) (lt_irrefl _)
  · intro i hi
    rw [hnext]
    rw [hobj, idsOfList_append, idsOfList_single_mk_none] at hi
    simp at hi
    rcases hi with hi | hi
    · have := hb i hi
      omega
    · omega

theorem handleDuplicateObject_inv (targetId : Nat) (s : AppState)
    (h : ForestInv s) : ForestInv (handleDuplicateObject targetId s) := by
  obtain ⟨hn, hb⟩ := h
  cases hf : findObjectRecursive s.objects targetId with
  | none =>
    have hobj : (handleDuplicateObject targetId s).objects = s.objects := by
      simp [handleDuplicateObject, hf, saveToHistory]
    have hnext : (handleDuplicateObject targetId s).nextId = s.nextId := by
      simp [handleDuplicateObject, hf, saveToHistory]
    exact ⟨hobj ▸ hn, fun i hi => hnext ▸ hb i (hobj ▸ hi)⟩
  | some original =>
    rcases hp : deepCloneObj (chooseDuplicateName (getAllNames s.objects) original.name)
        true original s.nextId with ⟨newObj, c'⟩
    have hobj : (handleDuplicateObject targetId s).objects = s.objects ++ [newObj] := by
      simp [handleDuplicateObject, hf, hp]
    have hnext : (handleDuplicateObject targetId s).nextId = c' := by
      simp [handleDuplicateObject, hf, hp]
    obtain ⟨k, hkpos, hc', hio⟩ := deepClone_ids.1 original
      (chooseDuplicateName (getAllNames s.objects) original.name) true s.nextId
    rw [hp] at hc' hio
    dsimp only at hc' hio
    have hone : idsOfList [newObj] = idsOfObj newObj := by simp
    constructor
    · rw [hobj, idsOfList_append, List.nodup_append, hone, hio]
      refine ⟨hn, List.nodup_range' _ _, ?_⟩
      intro a ha hmem
      rw [List.mem_range'_1] at hmem
      exact absurd (hb _ ha) (not_lt.mpr hmem.1)
    · intro i hi
      rw [hnext, hc']
      rw [hobj, idsOfList_append, hone, hio] at hi
      rcases List.mem_append.mp hi with hi | hi
      · have := hb i hi
        omega
      · rw [List.mem_range'_1] at hi
        omega

theorem handleGroup_inv (s : AppState) (h : ForestInv s) : ForestInv (handleGroup s) := by
  obtain ⟨hn, hb⟩ := h
  by_cases hlen : s.selectedIds.length < 2
  · have heq : handleGroup s = s := by simp [handleGroup, hlen]
    rw [heq]
    exact ⟨hn, hb⟩
  · by_cases hemp : (s.objects.filter (fun o => o.id ∈ s.selectedIds)).isEmpty
    · have hobj : (handleGroup s).objects = s.objects := by
        simp [handleGroup, hlen, hemp, saveToHistory]
      have hnext : (handleGroup s).nextId = s.nextId := by
        simp [handleGroup, hlen, hemp, saveToHistory]
      exact ⟨hobj ▸ hn, fun i hi => hnext ▸ hb i (hobj ▸ hi)⟩
    · have hobj : (handleGroup s).objects =
          s.objects.filter (fun o => o.id ∉ s.selectedIds) ++
          [SceneObject.mk
            { id := s.nextId
              type := .group
              position := groupCenter (s.objects.filter (fun o => o.id ∈ s.selectedIds))
              rotation := Vec3.zero
              scale := ⟨1, 1, 1⟩
              pivot := some Vec3.zero
              color := "#ffffff"
              name := "Group " ++ natStr (s.objects.length + 1)
              geometryData := none
              baseDimensions := none }
            (some ((s.objects.filter (fun o => o.id ∈ s.selectedIds)).map
              (fun o => setPosition o (o.data.position.sub
                (groupCenter (s.objects.filter (fun o => o.id ∈ s.selectedIds)))))))] := by
        simp [handleGroup, hlen, hemp, generateId, saveToHistory]
      have hnext : (handleGroup s).nextId = s.nextId + 1 := by
        simp [handleGroup, hlen, hemp, generateId, saveToHistory]
      have hids : idsOfList (handleGroup s).objects =
          idsOfList (s.objects.filter (fun o => o.id ∉ s.selectedIds)) ++
          s.nextId :: idsOfList (s.objects.filter (fun o => o.id ∈ s.selectedIds)) := by
        rw [hobj, idsOfList_append]
        congr 1
        rw [idsOfList_cons, idsOfList_nil, List.append_nil, idsOfObj_mk_some]
        rw [idsOfList_map_of_preserving _ (fun o => idsOfObj_setPosition o _)]
      have hoth : s.objects.filter (fun o => o.id ∉ s.selectedIds) =
          s.objects.filter (fun o => !(decide (o.id ∈ s.selectedIds))) := by
        simp only [decide_not]
      have hfilters : ((s.objects.filter (fun o => o.id ∈ s.selectedIds)) ++
          (s.objects.filter (fun o => o.id ∉ s.selectedIds))).Perm s.objects := by
        rw [hoth]
        exact List.filter_append_perm _ s.objects
      have hinner : (idsOfList (s.objects.filter (fun o => o.id ∉ s.selectedIds)) ++
          idsOfList (s.objects.filter (fun o => o.id ∈ s.selectedIds))).Perm
          (idsOfList s.objects) := by
        refine List.Perm.trans List.perm_append_comm ?_
        rw [← idsOfList_append]
        exact idsOfList_perm hfilters
      have hperm : (idsOfList (handleGroup s).objects).Perm
          (s.nextId :: idsOfList s.objects) := by
        rw [hids]
        exact List.Perm.trans List.perm_middle (List.Perm.cons _ hinner)
      constructor
      · rw [hperm.nodup_iff]
        exact List.nodup_cons.mpr
          ⟨fun hmem => absurd (hb _ hmem) (lt_irrefl _), hn⟩
      · intro i hi
        have hmem := hperm.subset hi
        rw [hnext]
        simp only [List.mem_cons] at hmem
        rcases hmem with rfl | hmem
        · omega
        · have := hb i hmem
          omega

theorem handleUngroup_inv (retrans : Transform → Transform → Transform) (s : AppState)
    (h : ForestInv s) : ForestInv (handleUngroup retrans s) := by
  obtain ⟨hn, hb⟩ := h
  rcases hsel : s.selectedIds with _ | ⟨gid, _ | ⟨b0, rest⟩⟩
  · have heq : handleUngroup retrans s = s := by simp [handleUngroup, hsel]
    rw [heq]
    exact ⟨hn, hb⟩
  · cases hfind : s.objects.find? (fun o => o.id = gid) with
    | none =>
      have heq : handleUngroup retrans s = s := by simp [handleUngroup, hsel, hfind]
      rw [heq]
      exact ⟨hn, hb⟩
    | some g =>
      by_cases htype : g.data.type = .group
      · cases g with
        | mk dg chg =>
          cases chg with
          | none =>
            have heq : handleUngroup retrans s = s := by
              simp [handleUngroup, hsel, hfind, htype]
            rw [heq]
            exact ⟨hn, hb⟩
          | some ch =>
            have htype2 : dg.type = ShapeType.group := htype
            have hgmem : SceneObject.mk dg (some ch) ∈ s.objects :=
              List.mem_of_find?_eq_some hfind
            obtain ⟨l1, l2, hsplit⟩ := List.append_of_mem hgmem
            have hobj : (handleUngroup retrans s).objects =
                s.objects.filter (fun o => o.id ≠ (SceneObject.mk dg (some ch)).id) ++
                ch.map (fun child => SceneObject.mk
                  { child.data with
                    position := (retrans (transformOf (.mk dg (some ch)))
                      (transformOf child)).position
                    rotation := (retrans (transformOf (.mk dg (some ch)))
                      (transformOf child)).rotation
                    scale := (retrans (transformOf (.mk dg (some ch)))
                      (transformOf child)).scale
                    pivot := some (child.data.pivot.getD Vec3.zero) }
                  child.children) := by
              simp [handleUngroup, hsel, hfind, htype2, saveToHistory]
            have hnext : (handleUngroup retrans s).nextId = s.nextId := by
              simp [handleUngroup, hsel, hfind, htype2, saveToHistory]
            have hids : idsOfList (handleUngroup retrans s).objects =
                idsOfList (s.objects.filter
                  (fun o => o.id ≠ (SceneObject.mk dg (some ch)).id)) ++ idsOfList ch := by
              rw [hobj, idsOfList_append,
                idsOfList_map_of_preserving _
                  (fun child => by cases child with | mk dc cc => cases cc <;> rfl) ch]
            have hfilter : s.objects.filter
                (fun o => o.id ≠ (SceneObject.mk dg (some ch)).id) =
                l1.filter (fun o => o.id ≠ (SceneObject.mk dg (some ch)).id) ++
                l2.filter (fun o => o.id ≠ (SceneObject.mk dg (some ch)).id) := by
              rw [hsplit, List.filter_append, List.filter_cons_of_neg (by simp)]
            have hperm0 : (idsOfList s.objects).Perm
                (dg.id :: (idsOfList l1 ++ (idsOfList ch ++ idsOfList l2))) := by
              rw [hsplit]
              simp only [idsOfList_append, idsOfList_cons, idsOfObj_mk_some,
                List.cons_append]
              exact List.perm_middle
            have hnodup2 : (idsOfList l1 ++ (idsOfList ch ++ idsOfList l2)).Nodup :=
              (List.nodup_cons.mp ((hperm0.nodup_iff).mp hn)).2
            have hpermB : (idsOfList l1 ++ (idsOfList l2 ++ idsOfList ch)).Perm
                (idsOfList l1 ++ (idsOfList ch ++ idsOfList l2)) :=
              List.Perm.append_left _ List.perm_append_comm
            have hnodupBig : ((idsOfList l1 ++ idsOfList l2) ++ idsOfList ch).Nodup := by
              rw [List.append_assoc]
              exact (hpermB.nodup_iff).mpr hnodup2
            have hsub : ((idsOfList (l1.filter
                  (fun o => o.id ≠ (SceneObject.mk dg (some ch)).id)) ++
                idsOfList (l2.filter
                  (fun o => o.id ≠ (SceneObject.mk dg (some ch)).id))) ++
                idsOfList ch).Sublist
                ((idsOfList l1 ++ idsOfList l2) ++ idsOfList ch) :=
              List.Sublist.append
                (List.Sublist.append
                  (idsOfList_sublist (List.filter_sublist l1))
                  (idsOfList_sublist (List.filter_sublist l2)))
                (List.Sublist.refl _)
            constructor
            · rw [hids, hfilter, idsOfList_append]
              exact List.Nodup.sublist hsub hnodupBig
            · intro i hi
              rw [hnext]
              rw [hids, hfilter, idsOfList_append] at hi
              have hmem1 := hsub.subset hi
              have hmem2 : i ∈ idsOfList s.objects := by
                rw [hsplit]
                simp only [List.mem_append, idsOfList_append, idsOfList_cons,
                  idsOfObj_mk_some, List.mem_cons] at hmem1 ⊢
                tauto
              exact hb i hmem2
      · have heq : handleUngroup retrans s = s := by
          simp [handleUngroup, hsel, hfind, htype]
        rw [heq]
        exact ⟨hn, hb⟩
  · have heq : handleUngroup retrans s = s := by simp [handleUngroup, hsel]
    rw [heq]
    exact ⟨hn, hb⟩

theorem ForestInv_of_eq {s t : AppState} (hobj : t.objects = s.objects)
    (hnext : t.nextId = s.nextId) (h : ForestInv s) : ForestInv t := by
  obtain ⟨hn, hb⟩ := h
  refine ⟨hobj ▸ hn, ?_⟩
  rw [hobj, hnext]
  exact hb

theorem performBooleanOperation_inv (op : BoolOp) (outcome : CSGOutcome) (s : AppState)
    (h : ForestInv s) : ForestInv (performBooleanOperation op outcome s) := by
  obtain ⟨hn, hb⟩ := h
  rcases hsel : s.selectedIds with _ | ⟨a, _ | ⟨b, _ | ⟨c, r⟩⟩⟩
  · exact ForestInv_of_eq (by simp [performBooleanOperation, hsel])
      (by simp [performBooleanOperation, hsel]) ⟨hn, hb⟩
  · exact ForestInv_of_eq (by simp [performBooleanOperation, hsel])
      (by simp [performBooleanOperation, hsel]) ⟨hn, hb⟩
  · cases hfa : findObjectRecursive s.objects a with
    | none =>
      cases hfb : findObjectRecursive s.objects b with
      | none =>
        exact ForestInv_of_eq (by simp [performBooleanOperation, hsel, hfa, hfb])
          (by simp [performBooleanOperation, hsel, hfa, hfb]) ⟨hn, hb⟩
      | some objB =>
        exact ForestInv_of_eq (by simp [performBooleanOperation, hsel, hfa, hfb])
          (by simp [performBooleanOperation, hsel, hfa, hfb]) ⟨hn, hb⟩
    | some objA =>
      cases hfb : findObjectRecursive s.objects b with
      | none =>
        exact ForestInv_of_eq (by simp [performBooleanOperation, hsel, hfa, hfb])
          (by simp [performBooleanOperation, hsel, hfa, hfb]) ⟨hn, hb⟩
      | some objB =>
        by_cases hgrp : objA.data.type = .group ∨ objB.data.type = .group
        · exact ForestInv_of_eq
            (by simp [performBooleanOperation, hsel, hfa, hfb, hgrp])
            (by simp [performBooleanOperation, hsel, hfa, hfb, hgrp]) ⟨hn, hb⟩
        · cases hres : (executeBooleanOperation objA objB op outcome s.nextId).result with
          | none =>
            exact ForestInv_of_eq
              (by simp [performBooleanOperation, hsel, hfa, hfb, hgrp, generateId, hres])
              (by simp [performBooleanOperation, hsel, hfa, hfb, hgrp, generateId, hres])
              ⟨hn, hb⟩
          | some resultObj =>
            have hobj : (performBooleanOperation op outcome s).objects =
                deleteObjectRecursive s.objects [a, b] ++ [resultObj] := by
              simp [performBooleanOperation, hsel, hfa, hfb, hgrp, generateId, hres,
                saveToHistory]
            have hnext : (performBooleanOperation op outcome s).nextId = s.nextId + 1 := by
              simp [performBooleanOperation, hsel, hfa, hfb, hgrp, generateId, hres,
                saveToHistory]
            have hids_res : idsOfObj resultObj = [s.nextId] := by
              simp only [executeBooleanOperation] at hres
              rcases hma : createMeshFromObject objA with _ | meshA
              · rw [hma] at hres
                simp at hres
              · rcases hmb : createMeshFromObject objB with _ | meshB
                · rw [hma, hmb] at hres
                  simp at hres
                · rw [hma, hmb] at hres
                  dsimp only at hres
                  by_cases hv : (performOperation meshA meshB outcome).isValid = true
                  · rw [if_pos hv] at hres
                    dsimp only at hres
                    injection hres with hres
                    rw [← hres]
                    rfl
                  · rw [if_neg hv] at hres
                    simp at hres
            have hsubl := deleteObjectRecursive_ids_sublist s.objects [a, b]
            have hnd : (idsOfList (deleteObjectRecursive s.objects [a, b])).Nodup :=
              List.Nodup.sublist hsubl hn
            have hlt : ∀ i ∈ idsOfList (deleteObjectRecursive s.objects [a, b]),
                i < s.nextId := fun i hi => hb i (hsubl.subset hi)
            have hsing : idsOfList [resultObj] = [s.nextId] := by
              simp [hids_res]
            constructor
            · rw [hobj, idsOfList_append, hsing]
              refine List.Nodup.append hnd (List.nodup_singleton _) ?_
              intro x hx1 hx2
              have hx3 : x = s.nextId := by simpa using hx2
              have := hlt x hx1
              omega
            · intro i hi
              rw [hnext]
              rw [hobj, idsOfList_append, hsing] at hi
              rcases List.mem_append.mp hi with h1 | h2
              · exact Nat.lt_succ_of_lt (hlt i h1)
              · have : i = s.nextId := by simpa using h2
                omega
  · exact ForestInv_of_eq (by simp [performBooleanOperation, hsel])
      (by simp [performBooleanOperation, hsel]) ⟨hn, hb⟩

theorem handleBooleanOperation_inv (op : BoolOp) (outcome : CSGOutcome) (s : AppState)
    (h : ForestInv s) : ForestInv (handleBooleanOperation op outcome s) := by
  rcases hsel : s.selectedIds with _ | ⟨a, _ | ⟨b, _ | ⟨c, r⟩⟩⟩
  · have heq : handleBooleanOperation op outcome s = s := by
      simp [handleBooleanOperation, hsel]
    rw [heq]
    exact h
  · have heq : handleBooleanOperation op outcome s = s := by
      simp [handleBooleanOperation, hsel]
    rw [heq]
    exact h
  · have heq : handleBooleanOperation op outcome s = performBooleanOperation op outcome s := by
      simp [handleBooleanOperation, hsel]
    rw [heq]
    exact performBooleanOperation_inv op outcome s h
  · have heq : handleBooleanOperation op outcome s = s := by
      simp [handleBooleanOperation, hsel]
    rw [heq]
    exact h

theorem applyCmd_inv (c : Cmd) (s : AppState) (h : ForestInv s) :
    ForestInv (applyCmd c s) := by
  cases c with
  | add t color => exact handleAddShape_inv t color s h
  | duplicate targetId => exact handleDuplicateObject_inv targetId s h
  | group => exact handleGroup_inv s h
  | ungroup retrans => exact handleUngroup_inv retrans s h
  | boolOp op outcome => exact handleBooleanOperation_inv op outcome s h
  | select ids => exact ForestInv_of_eq rfl rfl h

theorem applyCmds_inv (cs : List Cmd) (s : AppState) (h : ForestInv s) :
    ForestInv (applyCmds cs s) := by
  induction cs generalizing s with
  | nil => exact h
  | cons c rest ih =>
    have hstep : applyCmds (c :: rest) s = applyCmds rest (applyCmd c s) := rfl
    rw [hstep]
    exact ih (applyCmd c s) (applyCmd_inv c s h)

theorem ForestInv_initialState : ForestInv initialState := by
  constructor
  · simp [initialState]
  · intro i hi
    simp [initialState] at hi

/-- **C7**: after any sequence of add, duplicate, group, ungroup,
boolean-combine (and selection) commands run from the freshly loaded
application, all node identifiers in the scene forest, at every nesting
depth, are pairwise distinct; and duplication (`deepClone`) assigns to every
copied node, descendants included, a block of identifiers taken verbatim
from the identifier supply — pairwise distinct and all at least the supply
counter, hence fresh with respect to every previously issued identifier.
The claim's hypothesis that the generator never reissues an identifier is
realized by the counter model of `generateId` (spec-modelled, as
`src/utils/idGenerator.ts` is not among the sources). -/
theorem identifier_uniqueness :
    (∀ cs : List Cmd, (idsOfList (applyCmds cs initialState).objects).Nodup) ∧
    (∀ (o : SceneObject) (nm : String) (b : Bool) (c : Nat),
      (idsOfObj (deepCloneObj nm b o c).1).Nodup ∧
      ∀ i ∈ idsOfObj (deepCloneObj nm b o c).1, c ≤ i) := by
  constructor
  · intro cs
    exact (applyCmds_inv cs initialState ForestInv_initialState).1
  · intro o nm b c
    obtain ⟨k, hk, hsnd, hids⟩ := deepClone_ids.1 o nm b c
    rw [hids]
    refine ⟨List.nodup_range' c k 1 (by norm_num), ?_⟩
    intro i hi
    exact (List.mem_range'_1.mp hi).1
